import Mathlib

/-! Sales register: reconciliation engine and record store.

A shallow embedding of `src/static/js/sales_register.js`.

Modelling conventions.

* JavaScript numbers are modelled as exact rationals: arithmetic is exact and there is
  no overflow.  `NaN` and `null` are explicit constructors of `JsVal`.
* The value of an `<input type="number">` is either the empty string or a valid
  floating-point number string; it is modelled as `Option ℚ`, `none` being the empty
  string.
* `x.toFixed(2)` yields a decimal string with two fractional digits; `toFixed2` is the
  number that string denotes, so that `parseFloat (x.toFixed(2))` is `JsVal.num (toFixed2 x)`.
* `localStorage` is reduced to the single slot `salesData`.
-/

namespace SalesRegister

/-! ## JavaScript values -/

/-- A JavaScript value found in a numeric position: a finite number, `NaN`, or `null`
(`null` is what `JSON.stringify` writes for `NaN`). -/
inductive JsVal where
  | num (q : ℚ)
  | nan
  | null
  deriving DecidableEq, Repr

/-- The function `parseFloat` applied to the value of a number input: the empty string
parses to `NaN`, a number string to its number. -/
def parseFloat : Option ℚ → JsVal
  | some q => JsVal.num q
  | none => JsVal.nan

/-- The idiom `x || 0` on a numeric value: `NaN`, `null` and `0` are falsy. -/
def orZero : JsVal → ℚ
  | JsVal.num q => if q = 0 then 0 else q
  | JsVal.nan => 0
  | JsVal.null => 0

/-- The number denoted by `x.toFixed(2)`: the multiple of `1/100` nearest to `x`, a tie
going to the larger magnitude (the sign is split off first, then the larger `n` is
picked among the two nearest). -/
def toFixed2 (x : ℚ) : ℚ :=
  if 0 ≤ x then (⌊x * 100 + 1 / 2⌋ : ℚ) / 100 else -((⌊-x * 100 + 1 / 2⌋ : ℚ) / 100)

/-! ## The form and the page -/

/-- The options of the `shift` select. -/
inductive Shift where
  | Morning
  | Evening
  | Night
  deriving DecidableEq, Repr

/-- The three ways a mismatch is presented: red / "Shortage", green / "Excess",
orange / "Perfect Match". -/
inductive Mismatch where
  | Shortage
  | Excess
  | Match
  deriving DecidableEq, Repr

/-- The named controls of `#salesForm`. -/
structure SalesForm where
  date : String
  shift : Shift
  attendant : String
  pump_no : Option ℚ
  opening_reading : Option ℚ
  closing_reading : Option ℚ
  test_sales : Option ℚ
  rate : Option ℚ
  total_liters_calculated : Option ℚ
  expected_amount : Option ℚ
  actual_amount : Option ℚ
  cash_sales : Option ℚ
  card_sales : Option ℚ
  upi_sales : Option ℚ
  credit_sales : Option ℚ
  deriving DecidableEq, Repr

/-- The summary paragraphs `#total_liters`, `#expected_display`, `#actual_display`,
`#short_excess` (each text is a `toFixed(2)` string, kept as the number it denotes) and
the colour class of `#short_excess`. -/
structure Display where
  total_liters : ℚ
  expected_display : ℚ
  actual_display : ℚ
  short_excess : ℚ
  short_excess_class : Mismatch
  deriving DecidableEq, Repr

/-- The part of the document the sales register reads and writes. -/
structure Page where
  form : SalesForm
  display : Display
  deriving DecidableEq, Repr

/-! ## Reconciliation engine -/

/-- Local `opening` of `calculateSales`. -/
def calculateSales.opening (f : SalesForm) : ℚ := orZero (parseFloat f.opening_reading)

/-- Local `closing` of `calculateSales`. -/
def calculateSales.closing (f : SalesForm) : ℚ := orZero (parseFloat f.closing_reading)

/-- Local `testSales` of `calculateSales`. -/
def calculateSales.testSales (f : SalesForm) : ℚ := orZero (parseFloat f.test_sales)

/-- Local `rate` of `calculateSales`. -/
def calculateSales.rate (f : SalesForm) : ℚ := orZero (parseFloat f.rate)

/-- Local `totalLiters` of `calculateSales`: `closing - opening - testSales`. -/
def calculateSales.totalLiters (f : SalesForm) : ℚ :=
  calculateSales.closing f - calculateSales.opening f - calculateSales.testSales f

/-- Local `expectedAmount` of `calculateSales`: `totalLiters * rate`. -/
def calculateSales.expectedAmount (f : SalesForm) : ℚ :=
  calculateSales.totalLiters f * calculateSales.rate f

/-- Local `actualAmount` of `calculateActualAmount`: the sum of the four payment
inputs, each read with `parseFloat(...) || 0`. -/
def calculateActualAmount.actualAmount (f : SalesForm) : ℚ :=
  orZero (parseFloat f.cash_sales) + orZero (parseFloat f.card_sales)
    + orZero (parseFloat f.upi_sales) + orZero (parseFloat f.credit_sales)

/-- Local `expectedAmount` of `calculateActualAmount`: read back from the read-only
input `expected_amount`. -/
def calculateActualAmount.expectedAmount (f : SalesForm) : ℚ :=
  orZero (parseFloat f.expected_amount)

/-- Local `mismatch` of `calculateActualAmount`. -/
def calculateActualAmount.mismatch (f : SalesForm) : ℚ :=
  calculateActualAmount.actualAmount f - calculateActualAmount.expectedAmount f

/-- The colour chosen for `#short_excess` by `calculateActualAmount` (lines 257-263). -/
def calculateActualAmount.className (mismatch : ℚ) : Mismatch :=
  if mismatch < 0 then Mismatch.Shortage
  else if mismatch > 0 then Mismatch.Excess
  else Mismatch.Match

/-- The function `calculateActualAmount`. -/
def calculateActualAmount (p : Page) : Page :=
  let actualAmount := calculateActualAmount.actualAmount p.form
  let mismatch := calculateActualAmount.mismatch p.form
  { form := { p.form with actual_amount := some (toFixed2 actualAmount) }
    display := { p.display with
      actual_display := toFixed2 actualAmount
      short_excess := toFixed2 mismatch
      short_excess_class := calculateActualAmount.className mismatch } }

/-- The page after lines 209-214 of `calculateSales`: the two read-only inputs and the
two summary paragraphs have been written with `toFixed(2)`. -/
def calculateSales.updateFields (p : Page) : Page :=
  let totalLiters := calculateSales.totalLiters p.form
  let expectedAmount := calculateSales.expectedAmount p.form
  { form := { p.form with
      total_liters_calculated := some (toFixed2 totalLiters)
      expected_amount := some (toFixed2 expectedAmount) }
    display := { p.display with
      total_liters := toFixed2 totalLiters
      expected_display := toFixed2 expectedAmount } }

/-- The function `calculateSales`: it writes the two read-only inputs and the two
summary paragraphs, then calls `calculateActualAmount` (line 217).  Lines 219-222 read
the slot `salesData` into locals that are never used; they come after every write and
change nothing on the page. -/
def calculateSales (p : Page) : Page :=
  calculateActualAmount (calculateSales.updateFields p)

/-- The value of local `mismatch` in the call of `calculateActualAmount` made by
`calculateSales`. -/
def calculateSales.mismatch (p : Page) : ℚ :=
  calculateActualAmount.mismatch (calculateSales.updateFields p).form

/-- The function `clearSalesForm`: `form.reset()` empties every control (the select
falls back to its first option) and the summary is reset to `0.00` in orange. -/
def clearSalesForm (_p : Page) : Page :=
  { form :=
      { date := ""
        shift := Shift.Morning
        attendant := ""
        pump_no := none
        opening_reading := none
        closing_reading := none
        test_sales := none
        rate := none
        total_liters_calculated := none
        expected_amount := none
        actual_amount := none
        cash_sales := none
        card_sales := none
        upi_sales := none
        credit_sales := none }
    display :=
      { total_liters := 0
        expected_display := 0
        actual_display := 0
        short_excess := 0
        short_excess_class := Mismatch.Match } }

/-- The mismatch line of `viewSalesDetails` (lines 416-418): which of the three texts
`Shortage: ...`, `Excess: ...`, `Perfect Match` is shown for a stored `short_excess`. -/
def viewSalesDetails.mismatchText (short_excess : ℚ) : Mismatch :=
  if short_excess < 0 then Mismatch.Shortage
  else if short_excess > 0 then Mismatch.Excess
  else Mismatch.Match

/-- The mismatch line of the print view in `saveAndPrint` (lines 507-509). -/
def saveAndPrint.mismatchText (short_excess : ℚ) : Mismatch :=
  if short_excess < 0 then Mismatch.Shortage
  else if short_excess > 0 then Mismatch.Excess
  else Mismatch.Match

/-! ## Records and the storage slot -/

/-- A sales record.  The eight raw numeric inputs have type `ν`: `JsVal` for a record in
memory (the result of `parseFloat`, possibly `NaN`), `Option ℚ` for a record inside the
JSON text (`none` is `null`).  The four derived fields are always numbers: they are
produced by `parseFloat(...) || 0` or parsed from a `toFixed(2)` text.  `pump_no` keeps
the string value of its number input. -/
structure SalesRecord (ν : Type) where
  id : ℕ
  date : String
  shift : Shift
  attendant : String
  pump_no : Option ℚ
  opening_reading : ν
  closing_reading : ν
  test_sales : ν
  rate : ν
  total_liters : ℚ
  expected_amount : ℚ
  actual_amount : ℚ
  cash_sales : ν
  card_sales : ν
  upi_sales : ν
  credit_sales : ν
  short_excess : ℚ
  created_at : String
  deriving DecidableEq, Repr

/-- A record as a JavaScript object in memory. -/
abbrev Sale := SalesRecord JsVal

/-- A record as written in the JSON text of the storage slot. -/
abbrev StoredSale := SalesRecord (Option ℚ)

/-- Apply a conversion to the eight raw numeric fields of a record. -/
def SalesRecord.mapRaw {ν μ : Type} (g : ν → μ) (r : SalesRecord ν) : SalesRecord μ :=
  { id := r.id
    date := r.date
    shift := r.shift
    attendant := r.attendant
    pump_no := r.pump_no
    opening_reading := g r.opening_reading
    closing_reading := g r.closing_reading
    test_sales := g r.test_sales
    rate := g r.rate
    total_liters := r.total_liters
    expected_amount := r.expected_amount
    actual_amount := r.actual_amount
    cash_sales := g r.cash_sales
    card_sales := g r.card_sales
    upi_sales := g r.upi_sales
    credit_sales := g r.credit_sales
    short_excess := r.short_excess
    created_at := r.created_at }

/-- How `JSON.stringify` writes a numeric value: `NaN` becomes `null`. -/
def JsVal.toJson : JsVal → Option ℚ
  | JsVal.num q => some q
  | JsVal.nan => none
  | JsVal.null => none

/-- How `JSON.parse` reads a numeric position: a number or `null`. -/
def JsVal.ofJson : Option ℚ → JsVal
  | some q => JsVal.num q
  | none => JsVal.null

/-- The text held by the slot `salesData`: the empty string, the serialization of an
array of records, or a text that `JSON.parse` rejects.  A text that parses to a value
other than an array of records is not represented. -/
inductive Blob where
  | emptyText
  | array (rs : List StoredSale)
  | corrupt
  deriving DecidableEq, Repr

/-- The slot `salesData` of `localStorage`; `none` when it was never written
(`getItem` returns `null`). -/
abbrev Storage := Option Blob

/-- Exceptions the modelled operations can throw. -/
inductive JsError where
  | syntaxError
  | typeError
  | quotaExceeded
  deriving DecidableEq, Repr

/-- The expression `JSON.parse(localStorage.getItem('salesData') || '[]')`: a missing
slot and the empty string are falsy and read as the empty array; a corrupt text makes
`JSON.parse` throw. -/
def getSalesData : Storage → Except JsError (List Sale)
  | none => Except.ok []
  | some Blob.emptyText => Except.ok []
  | some (Blob.array rs) => Except.ok (rs.map (SalesRecord.mapRaw JsVal.ofJson))
  | some Blob.corrupt => Except.error JsError.syntaxError

/-- The expression `JSON.stringify(salesData)`. -/
def jsonStringify (salesData : List Sale) : Blob :=
  Blob.array (salesData.map (SalesRecord.mapRaw JsVal.toJson))

/-- What the environment supplies to one call of `saveSalesEntry`: the clock
(`Date.now()` and `new Date().toISOString()`) and whether `localStorage.setItem` has
room for the text (it throws a quota error otherwise and leaves the slot as it was). -/
structure Env where
  now : ℕ
  isoNow : String
  quotaOk : Bool
  deriving DecidableEq, Repr

/-- The call `localStorage.setItem('salesData', text)`. -/
def setItem (env : Env) (_old : Storage) (text : Blob) : Except JsError Storage :=
  if env.quotaOk then Except.ok (some text) else Except.error JsError.quotaExceeded

/-- The notifications raised through `showToast`. -/
inductive Toast where
  | errorSaving
  | savedOk
  | errorSubmitting
  | errorSavingForPrinting
  | savedAndPrinted
  | deletedOk
  | errorDeleting
  | noSalesData
  | exportedOk
  | errorExporting
  deriving DecidableEq, Repr

/-- The object literal `newEntry` of `saveSalesEntry` (lines 296-321). -/
def saveSalesEntry.newEntry (env : Env) (p : Page) : Sale :=
  { id := env.now
    date := p.form.date
    shift := p.form.shift
    attendant := p.form.attendant
    pump_no := p.form.pump_no
    opening_reading := parseFloat p.form.opening_reading
    closing_reading := parseFloat p.form.closing_reading
    test_sales := parseFloat p.form.test_sales
    rate := parseFloat p.form.rate
    total_liters := orZero (parseFloat p.form.total_liters_calculated)
    expected_amount := orZero (parseFloat p.form.expected_amount)
    actual_amount := orZero (parseFloat p.form.actual_amount)
    cash_sales := parseFloat p.form.cash_sales
    card_sales := parseFloat p.form.card_sales
    upi_sales := parseFloat p.form.upi_sales
    credit_sales := parseFloat p.form.credit_sales
    short_excess := p.display.short_excess
    created_at := env.isoNow }

/-- What a call of `saveSalesEntry` leaves behind: the slot, the returned value
(`none` is `null`) and the toasts shown. -/
structure SaveOutcome where
  storage : Storage
  result : Option Sale
  toasts : List Toast
  deriving DecidableEq, Repr

/-- The function `saveSalesEntry`: read the slot, build `newEntry`, push it, write the
whole array back, return `newEntry`; any exception is caught, toasted, and `null` is
returned. -/
def saveSalesEntry (env : Env) (st : Storage) (p : Page) : SaveOutcome :=
  match getSalesData st with
  | Except.error _ => { storage := st, result := none, toasts := [Toast.errorSaving] }
  | Except.ok salesData =>
    let newEntry := saveSalesEntry.newEntry env p
    match setItem env st (jsonStringify (salesData ++ [newEntry])) with
    | Except.error _ => { storage := st, result := none, toasts := [Toast.errorSaving] }
    | Except.ok st1 => { storage := st1, result := some newEntry, toasts := [] }

/-! ## Submitting the form -/

/-- The attribute `required` on a number input: the value must not be empty. -/
def requiredOk (v : Option ℚ) : Bool := v.isSome

/-- The attribute `step` on a number input (no `min`, so the step base is `0`): an
empty value passes, a number must be an integral multiple of the step. -/
def stepOk (step : ℚ) : Option ℚ → Bool
  | none => true
  | some q => decide (((⌊q / step⌋ : ℤ) : ℚ) = q / step)

/-- The call `form.checkValidity()` for the template of `getSalesRegisterTemplate`:
`date`, `attendant`, `pump_no`, `opening_reading`, `closing_reading` and `rate` are
`required`; `pump_no` has the default step `1`, the other editable number inputs have
`step="0.01"`; read-only inputs are not validated; the select always holds one of its
three options. -/
def checkValidity (f : SalesForm) : Bool :=
  decide (f.date ≠ "") && decide (f.attendant ≠ "")
    && requiredOk f.pump_no && stepOk 1 f.pump_no
    && requiredOk f.opening_reading && stepOk (1 / 100) f.opening_reading
    && requiredOk f.closing_reading && stepOk (1 / 100) f.closing_reading
    && stepOk (1 / 100) f.test_sales
    && requiredOk f.rate && stepOk (1 / 100) f.rate
    && stepOk (1 / 100) f.cash_sales && stepOk (1 / 100) f.card_sales
    && stepOk (1 / 100) f.upi_sales && stepOk (1 / 100) f.credit_sales

/-- How a submission ends: rejected by `checkValidity` (the browser reports the
offending control through `reportValidity`), saved, or failed inside
`saveSalesEntry`. -/
inductive SubmitResult where
  | rejected
  | saved (r : Sale)
  | failed
  deriving DecidableEq, Repr

/-- What a submission leaves behind. -/
structure SubmitOutcome where
  storage : Storage
  page : Page
  result : SubmitResult
  toasts : List Toast
  deriving DecidableEq, Repr

/-- The `submit` listener installed by `initSalesRegister` (lines 572-606). -/
def submitHandler (env : Env) (st : Storage) (p : Page) : SubmitOutcome :=
  if !checkValidity p.form then
    { storage := st, page := p, result := SubmitResult.rejected, toasts := [] }
  else
    let o := saveSalesEntry env st p
    match o.result with
    | some r =>
      { storage := o.storage, page := clearSalesForm p, result := SubmitResult.saved r
        toasts := o.toasts ++ [Toast.savedOk] }
    | none =>
      { storage := o.storage, page := p, result := SubmitResult.failed, toasts := o.toasts }

/-- The function `saveAndPrint`, the second caller of `saveSalesEntry`
(lines 488-567); the print window itself is not modelled. -/
def saveAndPrint (env : Env) (st : Storage) (p : Page) : SubmitOutcome :=
  if !checkValidity p.form then
    { storage := st, page := p, result := SubmitResult.rejected, toasts := [] }
  else
    let o := saveSalesEntry env st p
    match o.result with
    | none =>
      { storage := o.storage, page := p, result := SubmitResult.failed
        toasts := o.toasts ++ [Toast.errorSavingForPrinting] }
    | some newEntry =>
      { storage := o.storage, page := clearSalesForm p, result := SubmitResult.saved newEntry
        toasts := o.toasts ++ [Toast.savedAndPrinted] }

/-! ## The life of the page -/

/-- The page as `getSalesRegisterTemplate` renders it and `initSalesRegister` leaves
it: every control empty except the date, which is set to today (lines 609-612); the
summary shows `0.00` in orange. -/
def initialPage (today : String) : Page :=
  { form :=
      { date := today
        shift := Shift.Morning
        attendant := ""
        pump_no := none
        opening_reading := none
        closing_reading := none
        test_sales := none
        rate := none
        total_liters_calculated := none
        expected_amount := none
        actual_amount := none
        cash_sales := none
        card_sales := none
        upi_sales := none
        credit_sales := none }
    display :=
      { total_liters := 0
        expected_display := 0
        actual_display := 0
        short_excess := 0
        short_excess_class := Mismatch.Match } }

/-- A user edit of one editable control, with the new value. -/
inductive FieldEdit where
  | date (v : String)
  | shift (v : Shift)
  | attendant (v : String)
  | pump_no (v : Option ℚ)
  | opening_reading (v : Option ℚ)
  | closing_reading (v : Option ℚ)
  | test_sales (v : Option ℚ)
  | rate (v : Option ℚ)
  | cash_sales (v : Option ℚ)
  | card_sales (v : Option ℚ)
  | upi_sales (v : Option ℚ)
  | credit_sales (v : Option ℚ)
  deriving DecidableEq, Repr

/-- The effect of a `change` event: the control takes its new value and the `onchange`
attribute of the template runs, `calculateSales()` for the readings and the rate,
`calculateActualAmount()` for the four payment inputs, nothing for the others. -/
def changeField (e : FieldEdit) (p : Page) : Page :=
  match e with
  | FieldEdit.date v => { p with form := { p.form with date := v } }
  | FieldEdit.shift v => { p with form := { p.form with shift := v } }
  | FieldEdit.attendant v => { p with form := { p.form with attendant := v } }
  | FieldEdit.pump_no v => { p with form := { p.form with pump_no := v } }
  | FieldEdit.opening_reading v =>
    calculateSales { p with form := { p.form with opening_reading := v } }
  | FieldEdit.closing_reading v =>
    calculateSales { p with form := { p.form with closing_reading := v } }
  | FieldEdit.test_sales v =>
    calculateSales { p with form := { p.form with test_sales := v } }
  | FieldEdit.rate v =>
    calculateSales { p with form := { p.form with rate := v } }
  | FieldEdit.cash_sales v =>
    calculateActualAmount { p with form := { p.form with cash_sales := v } }
  | FieldEdit.card_sales v =>
    calculateActualAmount { p with form := { p.form with card_sales := v } }
  | FieldEdit.upi_sales v =>
    calculateActualAmount { p with form := { p.form with upi_sales := v } }
  | FieldEdit.credit_sales v =>
    calculateActualAmount { p with form := { p.form with credit_sales := v } }

/-- The pages a user can bring about: the initial page, then any sequence of edits and
of form resets (`Clear Form`, or the reset that follows a successful save). -/
inductive Reachable : Page → Prop where
  | init (today : String) : Reachable (initialPage today)
  | change (e : FieldEdit) (p : Page) : Reachable p → Reachable (changeField e p)
  | clear (p : Page) : Reachable p → Reachable (clearSalesForm p)

/-- Apply a list of edits, first edit first. -/
def applyEdits (es : List FieldEdit) (p : Page) : Page :=
  es.foldl (fun q e => changeField e q) p

/-! ## Dates and sorting -/

/-- Gregorian leap years. -/
def isLeapYear (y : ℕ) : Bool := y % 4 = 0 && (y % 100 != 0 || y % 400 = 0)

/-- Number of days of month `m` (1 to 12) of year `y`; `0` for any other `m`. -/
def daysInMonth (y m : ℕ) : ℕ :=
  if m = 2 then (if isLeapYear y then 29 else 28)
  else if m = 4 ∨ m = 6 ∨ m = 9 ∨ m = 11 then 30
  else if 1 ≤ m ∧ m ≤ 12 then 31
  else 0

/-- Days of year `y` that precede its month `m`. -/
def daysBeforeMonth (y : ℕ) : ℕ → ℕ
  | 0 => 0
  | 1 => 0
  | m + 2 => daysBeforeMonth y (m + 1) + daysInMonth y (m + 1)

/-- Days from 0000-01-01 to the first day of year `y`. -/
def daysBeforeYear (y : ℕ) : ℕ := 365 * y + (y + 3) / 4 - (y + 99) / 100 + (y + 399) / 400

/-- The value of a decimal digit character. -/
def digitValue (c : Char) : Option ℕ := if c.isDigit then some (c.toNat - 48) else none

/-- Read a date string of the form `YYYY-MM-DD` (the value of a date input) as year,
month, day; `none` when the text has another shape or names no calendar day. -/
def parseIsoDate (s : String) : Option (ℕ × ℕ × ℕ) :=
  match s.toList with
  | [y1, y2, y3, y4, '-', m1, m2, '-', d1, d2] =>
    match digitValue y1, digitValue y2, digitValue y3, digitValue y4,
      digitValue m1, digitValue m2, digitValue d1, digitValue d2 with
    | some a, some b, some c, some d, some e, some f, some g, some h =>
      let y := 1000 * a + 100 * b + 10 * c + d
      let m := 10 * e + f
      let dd := 10 * g + h
      if 1 ≤ m ∧ m ≤ 12 ∧ 1 ≤ dd ∧ dd ≤ daysInMonth y m then some (y, m, dd) else none
    | _, _, _, _, _, _, _, _ => none
  | _ => none

/-- Days from 0000-01-01 to day `d` of month `m` of year `y`. -/
def dayIndex (y m d : ℕ) : ℕ := daysBeforeYear y + daysBeforeMonth y m + (d - 1)

/-- The time value of `new Date(s)` in milliseconds since 1970-01-01 (a date-only
string is read as UTC midnight; 1970-01-01 is day 719528); `NaN` for an invalid date.
Only the date-only form `YYYY-MM-DD` is recognised here; every other text counts as an
invalid date. -/
def dateValue (s : String) : JsVal :=
  match parseIsoDate s with
  | some (y, m, d) => JsVal.num ((((dayIndex y m d : ℕ) : ℚ) - 719528) * 86400000)
  | none => JsVal.nan

/-- The comparator `(a, b) => new Date(b.date) - new Date(a.date)`, followed by what
`Array.prototype.sort` does with its result: a `NaN` counts as `0`. -/
def sortCompare (a b : Sale) : ℚ :=
  match dateValue b.date, dateValue a.date with
  | JsVal.num tb, JsVal.num ta => tb - ta
  | _, _ => 0

/-- The call `Array.prototype.sort(compare)`, which is a stable sort (ECMAScript 2019):
`a` stays before `b` unless the comparator is positive. -/
def jsSort (l : List Sale) : List Sale :=
  l.insertionSort (fun a b => sortCompare a b ≤ 0)

/-! ## Listing -/

/-- The function `loadSalesHistory`: the records shown as table rows, in row order
(no row is a record when the array is empty).  It has no `try`: an exception of
`JSON.parse` propagates. -/
def loadSalesHistory (st : Storage) : Except JsError (List Sale) :=
  match getSalesData st with
  | Except.error e => Except.error e
  | Except.ok salesData =>
    if salesData.length = 0 then Except.ok [] else Except.ok (jsSort salesData)

/-- Local `filteredData` of `filterSales` (lines 378-381); the empty string is falsy:
no filter. -/
def filterSales.filteredData (filterDate : String) (salesData : List Sale) : List Sale :=
  if filterDate ≠ "" then salesData.filter (fun sale => decide (sale.date = filterDate))
  else salesData

/-- The function `filterSales` for the value `filterDate` of `#filterDate`: the records
shown as table rows, in row order. -/
def filterSales (filterDate : String) (st : Storage) : Except JsError (List Sale) :=
  match getSalesData st with
  | Except.error e => Except.error e
  | Except.ok salesData =>
    let filteredData := filterSales.filteredData filterDate salesData
    if filteredData.length = 0 then Except.ok [] else Except.ok (jsSort filteredData)

/-! ## Deleting -/

/-- What a call of `deleteSalesEntry` leaves behind: the slot and the toasts shown. -/
structure DeleteOutcome where
  storage : Storage
  toasts : List Toast
  deriving DecidableEq, Repr

/-- The function `deleteSalesEntry`; `confirmed` is the answer to the `confirm` dialog.
The array without the records of that `id` is written back whole, the table is
rendered again, and success is toasted; any exception is caught and toasted. -/
def deleteSalesEntry (confirmed : Bool) (env : Env) (st : Storage) (saleId : ℕ) :
    DeleteOutcome :=
  if !confirmed then { storage := st, toasts := [] }
  else
    match getSalesData st with
    | Except.error _ => { storage := st, toasts := [Toast.errorDeleting] }
    | Except.ok salesData =>
      let updatedData := salesData.filter (fun sale => decide (sale.id ≠ saleId))
      match setItem env st (jsonStringify updatedData) with
      | Except.error _ => { storage := st, toasts := [Toast.errorDeleting] }
      | Except.ok st1 =>
        match loadSalesHistory st1 with
        | Except.error _ => { storage := st1, toasts := [Toast.errorDeleting] }
        | Except.ok _ => { storage := st1, toasts := [Toast.deletedOk] }

/-! ## Exporting -/

/-- A cell of a CSV line, before it is turned into text: a text, a shift name, the
string of a number input, a numeric value written as it is (`join` writes `null` as
the empty text), or a number written with `toFixed(2)`. -/
inductive CsvCell where
  | text (s : String)
  | shift (s : Shift)
  | input (v : Option ℚ)
  | raw (v : JsVal)
  | fixed (q : ℚ)
  deriving DecidableEq, Repr

/-- The array `headers` of `exportSales`. -/
def exportSales.headers : List String :=
  ["Date", "Shift", "Attendant", "Pump No", "Opening Reading", "Closing Reading",
    "Test Sales", "Rate", "Total Liters", "Expected Amount", "Actual Amount", "Short/Excess",
    "Cash Sales", "Card Sales", "UPI Sales", "Credit Sales"]

/-- The method call `v.toFixed(2)` on a raw field: a number is formatted, `NaN` gives
the text `NaN`, and `null` has no method `toFixed`, which throws a `TypeError`. -/
def toFixedCell : JsVal → Except JsError CsvCell
  | JsVal.num q => Except.ok (CsvCell.fixed (toFixed2 q))
  | JsVal.nan => Except.ok (CsvCell.text "NaN")
  | JsVal.null => Except.error JsError.typeError

/-- The line built for one record by the callback of `salesData.map` in `exportSales`
(lines 452-469). -/
def exportSales.row (sale : Sale) : Except JsError (List CsvCell) :=
  match toFixedCell sale.cash_sales, toFixedCell sale.card_sales,
    toFixedCell sale.upi_sales, toFixedCell sale.credit_sales with
  | Except.ok cash, Except.ok card, Except.ok upi, Except.ok credit =>
    Except.ok
      [CsvCell.text sale.date, CsvCell.shift sale.shift, CsvCell.text sale.attendant,
        CsvCell.input sale.pump_no, CsvCell.raw sale.opening_reading,
        CsvCell.raw sale.closing_reading, CsvCell.raw sale.test_sales, CsvCell.raw sale.rate,
        CsvCell.fixed (toFixed2 sale.total_liters), CsvCell.fixed (toFixed2 sale.expected_amount),
        CsvCell.fixed (toFixed2 sale.actual_amount), CsvCell.fixed (toFixed2 sale.short_excess),
        cash, card, upi, credit]
  | _, _, _, _ => Except.error JsError.typeError

/-- The call `salesData.map(...)` of `exportSales`: one line per record, in the order of
the array; the first exception ends it. -/
def exportSales.rows : List Sale → Except JsError (List (List CsvCell))
  | [] => Except.ok []
  | sale :: rest =>
    match exportSales.row sale with
    | Except.error e => Except.error e
    | Except.ok line =>
      match exportSales.rows rest with
      | Except.error e => Except.error e
      | Except.ok lines => Except.ok (line :: lines)

/-- What a call of `exportSales` leaves behind: the lines of the downloaded CSV file,
header line first (`none` when no file is produced), and the toasts shown. -/
structure ExportOutcome where
  csv : Option (List (List CsvCell))
  toasts : List Toast
  deriving DecidableEq, Repr

/-- The function `exportSales`.  The lines are kept as lists of cells; joining them
with commas and newlines and handing the text to the browser is not modelled. -/
def exportSales (st : Storage) : ExportOutcome :=
  match getSalesData st with
  | Except.error _ => { csv := none, toasts := [Toast.errorExporting] }
  | Except.ok salesData =>
    if salesData.length = 0 then { csv := none, toasts := [Toast.noSalesData] }
    else
      match exportSales.rows salesData with
      | Except.error _ => { csv := none, toasts := [Toast.errorExporting] }
      | Except.ok lines =>
        { csv := some (exportSales.headers.map CsvCell.text :: lines)
          toasts := [Toast.exportedOk] }

/-! ## Sequences of operations on the store -/

/-- One operation on the store: a submission of the form (`create`), or a click on a
`Delete` button together with the answer to its confirmation dialog. -/
inductive StoreOp where
  | create (env : Env) (p : Page)
  | delete (confirmed : Bool) (env : Env) (saleId : ℕ)
  deriving DecidableEq, Repr

/-- The slot after one operation. -/
def StoreOp.apply (st : Storage) : StoreOp → Storage
  | StoreOp.create env p => (submitHandler env st p).storage
  | StoreOp.delete confirmed env saleId => (deleteSalesEntry confirmed env st saleId).storage

/-- The slot after a sequence of operations, first operation first. -/
def runOps (ops : List StoreOp) (st : Storage) : Storage :=
  ops.foldl StoreOp.apply st

/-! ## Specification-side notions and worked inputs -/

/-- A number with at most two fractional digits. -/
def IsCents (q : ℚ) : Prop := ∃ n : ℤ, q = (n : ℚ) / 100

/-- The derived values of the page, as `saveSalesEntry` reads them, agree with the
current raw inputs. -/
def Synced (p : Page) : Prop :=
  orZero (parseFloat p.form.total_liters_calculated)
      = toFixed2 (calculateSales.totalLiters p.form)
    ∧ orZero (parseFloat p.form.expected_amount)
      = toFixed2 (calculateSales.expectedAmount p.form)
    ∧ orZero (parseFloat p.form.actual_amount)
      = toFixed2 (calculateActualAmount.actualAmount p.form)
    ∧ p.display.short_excess
      = toFixed2 (calculateActualAmount.actualAmount p.form
          - toFixed2 (calculateSales.expectedAmount p.form))

/-- The clock and storage conditions of the worked examples. -/
def exampleEnv : Env := { now := 1704412800123, isoNow := "2024-01-05T00:00:00.123Z", quotaOk := true }

/-- The scenario of the specification, entered control by control. -/
def scenarioPage : Page :=
  applyEdits
    [FieldEdit.attendant "Asha", FieldEdit.pump_no (some 1),
      FieldEdit.opening_reading (some 100), FieldEdit.closing_reading (some 150),
      FieldEdit.test_sales (some 2), FieldEdit.rate (some 90),
      FieldEdit.cash_sales (some 3000), FieldEdit.card_sales (some 1000),
      FieldEdit.upi_sales (some 500), FieldEdit.credit_sales (some 0)]
    (initialPage "2024-01-05")

/-- The record the scenario saves. -/
def scenarioRecord : Sale :=
  { id := 1704412800123
    date := "2024-01-05"
    shift := Shift.Morning
    attendant := "Asha"
    pump_no := some 1
    opening_reading := JsVal.num 100
    closing_reading := JsVal.num 150
    test_sales := JsVal.num 2
    rate := JsVal.num 90
    total_liters := 48
    expected_amount := 4320
    actual_amount := 4500
    cash_sales := JsVal.num 3000
    card_sales := JsVal.num 1000
    upi_sales := JsVal.num 500
    credit_sales := JsVal.num 0
    short_excess := 180
    created_at := "2024-01-05T00:00:00.123Z" }

/-- A record after `JSON.stringify` and `JSON.parse`. -/
def jsonRoundTrip (r : Sale) : Sale := r.mapRaw (fun v => JsVal.ofJson (JsVal.toJson v))

/-- A page whose expected amount has more than two fractional digits:
`(100.25 - 100 - 0) * 90.25 = 22.5625`; every optional control is filled in. -/
def roundingPage : Page :=
  applyEdits
    [FieldEdit.attendant "Asha", FieldEdit.pump_no (some 1),
      FieldEdit.opening_reading (some 100), FieldEdit.closing_reading (some (401 / 4)),
      FieldEdit.test_sales (some 0), FieldEdit.rate (some (361 / 4)),
      FieldEdit.cash_sales (some (564 / 25)), FieldEdit.card_sales (some 0),
      FieldEdit.upi_sales (some 0), FieldEdit.credit_sales (some 0)]
    (initialPage "2024-01-05")

/-- The record `roundingPage` saves. -/
def roundingRecord : Sale :=
  { id := 1704412800123
    date := "2024-01-05"
    shift := Shift.Morning
    attendant := "Asha"
    pump_no := some 1
    opening_reading := JsVal.num 100
    closing_reading := JsVal.num (401 / 4)
    test_sales := JsVal.num 0
    rate := JsVal.num (361 / 4)
    total_liters := 1 / 4
    expected_amount := 564 / 25
    actual_amount := 564 / 25
    cash_sales := JsVal.num (564 / 25)
    card_sales := JsVal.num 0
    upi_sales := JsVal.num 0
    credit_sales := JsVal.num 0
    short_excess := 0
    created_at := "2024-01-05T00:00:00.123Z" }

/-- A valid page on which `test_sales` and the four payment inputs were never filled
in. -/
def sparsePage : Page :=
  applyEdits
    [FieldEdit.attendant "Asha", FieldEdit.pump_no (some 1),
      FieldEdit.opening_reading (some 100), FieldEdit.closing_reading (some 150),
      FieldEdit.rate (some 90)]
    (initialPage "2024-01-05")

/-- Calendar order on date strings: both have the form `YYYY-MM-DD` and the first day
is not after the second. -/
def dateLe (a b : String) : Prop :=
  match parseIsoDate a, parseIsoDate b with
  | some (y1, m1, d1), some (y2, m2, d2) =>
    y1 < y2 ∨ (y1 = y2 ∧ (m1 < m2 ∨ (m1 = m2 ∧ d1 ≤ d2)))
  | _, _ => False

/-- The day number of a record's date (`0` when the date is invalid). -/
def sortKey (r : Sale) : ℕ :=
  match parseIsoDate r.date with
  | some (y, m, d) => dayIndex y m d
  | none => 0

/-- A record that differs from `roundingRecord` by its date only. -/
def laterRecord : Sale := { roundingRecord with id := 1704499200456, date := "2024-01-06" }

/-- The readings of `Date.now()` at the submissions of a sequence of operations, in
order. -/
def createClocks : List StoreOp → List ℕ
  | [] => []
  | StoreOp.create env _ :: ops => env.now :: createClocks ops
  | StoreOp.delete _ _ _ :: ops => createClocks ops

/-- A record never leaves `exportSales.row` through its `TypeError`: none of its four
payment fields is `null`. -/
def PaymentsPresent (r : Sale) : Prop :=
  r.cash_sales ≠ JsVal.null ∧ r.card_sales ≠ JsVal.null ∧ r.upi_sales ≠ JsVal.null
    ∧ r.credit_sales ≠ JsVal.null

/-- A later reading of the clock than `exampleEnv`. -/
def laterEnv : Env :=
  { now := 1704499200456, isoNow := "2024-01-06T00:00:00.456Z", quotaOk := true }

/-- What holds of a slot whose records were all created at clock readings in `clocks`:
it can be read, its ids increase strictly in collection order, and each id is one of
the readings. -/
def IdsIncreasing (st : Storage) (clocks : List ℕ) : Prop :=
  ∃ coll : List Sale, getSalesData st = Except.ok coll
    ∧ (coll.map (fun r => r.id)).Pairwise (fun a b => a < b)
    ∧ ∀ r ∈ coll, r.id ∈ clocks

/-! ## Supporting lemmas -/

theorem orZero_num (q : ℚ) : orZero (JsVal.num q) = q := by
  simp only [orZero]
  split_ifs with h
  · exact h.symm
  · rfl

theorem orZero_parseFloat_some (q : ℚ) : orZero (parseFloat (some q)) = q := by
  simp [parseFloat, orZero_num]

theorem orZero_parseFloat_none : orZero (parseFloat none) = 0 := rfl

theorem isCents_zero : IsCents 0 := ⟨0, by simp⟩

theorem IsCents.add {a b : ℚ} (ha : IsCents a) (hb : IsCents b) : IsCents (a + b) := by
  obtain ⟨m, rfl⟩ := ha
  obtain ⟨n, rfl⟩ := hb
  exact ⟨m + n, by push_cast; ring⟩

theorem IsCents.sub {a b : ℚ} (ha : IsCents a) (hb : IsCents b) : IsCents (a - b) := by
  obtain ⟨m, rfl⟩ := ha
  obtain ⟨n, rfl⟩ := hb
  exact ⟨m - n, by push_cast; ring⟩

theorem isCents_toFixed2 (x : ℚ) : IsCents (toFixed2 x) := by
  unfold toFixed2
  split_ifs
  · exact ⟨_, rfl⟩
  · exact ⟨-⌊-x * 100 + 1 / 2⌋, by push_cast; ring⟩

theorem floor_int_add_half (n : ℤ) : ⌊(n : ℚ) + 1 / 2⌋ = n := by
  rw [Int.floor_eq_iff]
  constructor <;> norm_num

theorem toFixed2_of_isCents {q : ℚ} (h : IsCents q) : toFixed2 q = q := by
  obtain ⟨n, rfl⟩ := h
  unfold toFixed2
  split_ifs with h0
  · have : (n : ℚ) / 100 * 100 + 1 / 2 = (n : ℚ) + 1 / 2 := by ring
    rw [this, floor_int_add_half]
  · have : -((n : ℚ) / 100) * 100 + 1 / 2 = ((-n : ℤ) : ℚ) + 1 / 2 := by push_cast; ring
    rw [this, floor_int_add_half]
    push_cast; ring

theorem isCents_of_stepOk {v : Option ℚ} (h : stepOk (1 / 100) v = true) :
    IsCents (orZero (parseFloat v)) := by
  cases v with
  | none => exact isCents_zero
  | some q =>
    rw [orZero_parseFloat_some]
    simp only [stepOk, decide_eq_true_eq] at h
    refine ⟨⌊q / (1 / 100)⌋, ?_⟩
    rw [h]; ring

theorem toFixed2_zero : toFixed2 0 = 0 := toFixed2_of_isCents isCents_zero

theorem synced_initialPage (today : String) : Synced (initialPage today) := by
  simp [Synced, initialPage, calculateSales.totalLiters, calculateSales.expectedAmount,
    calculateActualAmount.actualAmount, calculateSales.opening, calculateSales.closing,
    calculateSales.testSales, calculateSales.rate, orZero_parseFloat_none, toFixed2_zero]

theorem synced_clearSalesForm (p : Page) : Synced (clearSalesForm p) := by
  simp [Synced, clearSalesForm, calculateSales.totalLiters, calculateSales.expectedAmount,
    calculateActualAmount.actualAmount, calculateSales.opening, calculateSales.closing,
    calculateSales.testSales, calculateSales.rate, orZero_parseFloat_none, toFixed2_zero]

theorem synced_calculateSales (p : Page) : Synced (calculateSales p) := by
  refine ⟨?_, ?_, ?_, ?_⟩ <;>
    simp [calculateSales, calculateSales.updateFields, calculateActualAmount,
      calculateSales.totalLiters, calculateSales.expectedAmount,
      calculateActualAmount.actualAmount, calculateActualAmount.mismatch,
      calculateActualAmount.expectedAmount, calculateSales.opening, calculateSales.closing,
      calculateSales.testSales, calculateSales.rate, orZero_parseFloat_some]

theorem synced_calculateActualAmount (p : Page)
    (h1 : orZero (parseFloat p.form.total_liters_calculated)
      = toFixed2 (calculateSales.totalLiters p.form))
    (h2 : orZero (parseFloat p.form.expected_amount)
      = toFixed2 (calculateSales.expectedAmount p.form)) :
    Synced (calculateActualAmount p) := by
  refine ⟨h1, h2, ?_, ?_⟩
  · simp [calculateActualAmount, calculateActualAmount.actualAmount, orZero_parseFloat_some]
  · simp only [calculateActualAmount, calculateActualAmount.mismatch,
      calculateActualAmount.expectedAmount, h2]
    rfl

theorem synced_changeField (e : FieldEdit) (p : Page) (h : Synced p) :
    Synced (changeField e p) := by
  cases e with
  | date v => exact h
  | shift v => exact h
  | attendant v => exact h
  | pump_no v => exact h
  | opening_reading v => exact synced_calculateSales _
  | closing_reading v => exact synced_calculateSales _
  | test_sales v => exact synced_calculateSales _
  | rate v => exact synced_calculateSales _
  | cash_sales v => exact synced_calculateActualAmount _ h.1 h.2.1
  | card_sales v => exact synced_calculateActualAmount _ h.1 h.2.1
  | upi_sales v => exact synced_calculateActualAmount _ h.1 h.2.1
  | credit_sales v => exact synced_calculateActualAmount _ h.1 h.2.1

theorem synced_of_reachable {p : Page} (h : Reachable p) : Synced p := by
  induction h with
  | init today => exact synced_initialPage today
  | change e p _ ih => exact synced_changeField e p ih
  | clear p _ _ => exact synced_clearSalesForm p

theorem reachable_applyEdits (es : List FieldEdit) {p : Page} (h : Reachable p) :
    Reachable (applyEdits es p) := by
  induction es generalizing p with
  | nil => exact h
  | cons e es ih => exact ih (Reachable.change e p h)

theorem checkValidity_spec {f : SalesForm} (h : checkValidity f = true) :
    (f.date ≠ "" ∧ f.attendant ≠ "" ∧ f.pump_no.isSome = true
      ∧ f.opening_reading.isSome = true ∧ f.closing_reading.isSome = true
      ∧ f.rate.isSome = true)
    ∧ (stepOk (1 / 100) f.opening_reading = true ∧ stepOk (1 / 100) f.closing_reading = true
      ∧ stepOk (1 / 100) f.test_sales = true ∧ stepOk (1 / 100) f.rate = true)
    ∧ (stepOk (1 / 100) f.cash_sales = true ∧ stepOk (1 / 100) f.card_sales = true
      ∧ stepOk (1 / 100) f.upi_sales = true ∧ stepOk (1 / 100) f.credit_sales = true) := by
  simp only [checkValidity, requiredOk, Bool.and_eq_true, decide_eq_true_eq] at h
  tauto

theorem actualAmount_isCents {f : SalesForm} (h : checkValidity f = true) :
    IsCents (calculateActualAmount.actualAmount f) := by
  obtain ⟨_, _, h1, h2, h3, h4⟩ := checkValidity_spec h
  exact (((isCents_of_stepOk h1).add (isCents_of_stepOk h2)).add (isCents_of_stepOk h3)).add
    (isCents_of_stepOk h4)

theorem totalLiters_isCents {f : SalesForm} (h : checkValidity f = true) :
    IsCents (calculateSales.totalLiters f) := by
  obtain ⟨_, ⟨h1, h2, h3, _⟩, _⟩ := checkValidity_spec h
  exact ((isCents_of_stepOk h2).sub (isCents_of_stepOk h1)).sub (isCents_of_stepOk h3)

/-- The derived fields of the entry built from a reachable, valid page. -/
theorem newEntry_derived (env : Env) {p : Page} (hr : Reachable p)
    (hv : checkValidity p.form = true) :
    (saveSalesEntry.newEntry env p).total_liters = calculateSales.totalLiters p.form
      ∧ (saveSalesEntry.newEntry env p).expected_amount
          = toFixed2 (calculateSales.expectedAmount p.form)
      ∧ (saveSalesEntry.newEntry env p).actual_amount
          = calculateActualAmount.actualAmount p.form
      ∧ (saveSalesEntry.newEntry env p).short_excess
          = calculateActualAmount.actualAmount p.form
            - toFixed2 (calculateSales.expectedAmount p.form) := by
  obtain ⟨h1, h2, h3, h4⟩ := synced_of_reachable hr
  refine ⟨?_, h2, ?_, ?_⟩
  · exact h1.trans (toFixed2_of_isCents (totalLiters_isCents hv))
  · exact h3.trans (toFixed2_of_isCents (actualAmount_isCents hv))
  · exact h4.trans (toFixed2_of_isCents ((actualAmount_isCents hv).sub (isCents_toFixed2 _)))

theorem submitHandler_of_valid (env : Env) (st : Storage) {p : Page} (prior : List Sale)
    (hv : checkValidity p.form = true) (hg : getSalesData st = Except.ok prior)
    (hq : env.quotaOk = true) :
    submitHandler env st p =
      { storage := some (jsonStringify (prior ++ [saveSalesEntry.newEntry env p]))
        page := clearSalesForm p
        result := SubmitResult.saved (saveSalesEntry.newEntry env p)
        toasts := [Toast.savedOk] } := by
  simp [submitHandler, saveSalesEntry, hv, hg, hq, setItem]

theorem scenario_raw :
    scenarioPage.form.date = "2024-01-05" ∧ scenarioPage.form.shift = Shift.Morning
      ∧ scenarioPage.form.attendant = "Asha" ∧ scenarioPage.form.pump_no = some 1
      ∧ scenarioPage.form.opening_reading = some 100
      ∧ scenarioPage.form.closing_reading = some 150
      ∧ scenarioPage.form.test_sales = some 2 ∧ scenarioPage.form.rate = some 90
      ∧ scenarioPage.form.cash_sales = some 3000 ∧ scenarioPage.form.card_sales = some 1000
      ∧ scenarioPage.form.upi_sales = some 500 ∧ scenarioPage.form.credit_sales = some 0 :=
  ⟨rfl, rfl, rfl, rfl, rfl, rfl, rfl, rfl, rfl, rfl, rfl, rfl⟩

theorem scenario_reachable : Reachable scenarioPage :=
  reachable_applyEdits _ (Reachable.init _)

theorem scenario_valid : checkValidity scenarioPage.form = true := by
  obtain ⟨h1, _, h2, h3, h4, h5, h6, h7, h8, h9, h10, h11⟩ := scenario_raw
  simp only [checkValidity, h1, h2, h3, h4, h5, h6, h7, h8, h9, h10, h11, requiredOk, stepOk]
  norm_num
  constructor <;> decide

theorem scenario_newEntry : saveSalesEntry.newEntry exampleEnv scenarioPage = scenarioRecord := by
  obtain ⟨d1, d2, d3, d4⟩ := newEntry_derived exampleEnv scenario_reachable scenario_valid
  obtain ⟨h1, h0, h2, h3, h4, h5, h6, h7, h8, h9, h10, h11⟩ := scenario_raw
  have e1 : calculateSales.totalLiters scenarioPage.form = 48 := by
    simp only [calculateSales.totalLiters, calculateSales.opening, calculateSales.closing,
      calculateSales.testSales, h4, h5, h6, orZero_parseFloat_some]
    norm_num
  have e2 : calculateSales.expectedAmount scenarioPage.form = 4320 := by
    simp only [calculateSales.expectedAmount, e1, calculateSales.rate, h7,
      orZero_parseFloat_some]
    norm_num
  have e3 : calculateActualAmount.actualAmount scenarioPage.form = 4500 := by
    simp only [calculateActualAmount.actualAmount, h8, h9, h10, h11, orZero_parseFloat_some]
    norm_num
  have e4 : toFixed2 4320 = 4320 := by norm_num [toFixed2]
  rw [e1] at d1
  rw [e2, e4] at d2 d4
  rw [e3] at d3 d4
  have d5 : (saveSalesEntry.newEntry exampleEnv scenarioPage).short_excess = 180 := by
    rw [d4]; norm_num
  have key : saveSalesEntry.newEntry exampleEnv scenarioPage =
      { scenarioRecord with
        total_liters := (saveSalesEntry.newEntry exampleEnv scenarioPage).total_liters
        expected_amount := (saveSalesEntry.newEntry exampleEnv scenarioPage).expected_amount
        actual_amount := (saveSalesEntry.newEntry exampleEnv scenarioPage).actual_amount
        short_excess := (saveSalesEntry.newEntry exampleEnv scenarioPage).short_excess } := rfl
  rw [key, d1, d2, d3, d5]
  rfl

theorem rounding_raw :
    roundingPage.form.date = "2024-01-05" ∧ roundingPage.form.shift = Shift.Morning
      ∧ roundingPage.form.attendant = "Asha" ∧ roundingPage.form.pump_no = some 1
      ∧ roundingPage.form.opening_reading = some 100
      ∧ roundingPage.form.closing_reading = some (401 / 4)
      ∧ roundingPage.form.test_sales = some 0 ∧ roundingPage.form.rate = some (361 / 4)
      ∧ roundingPage.form.cash_sales = some (564 / 25) ∧ roundingPage.form.card_sales = some 0
      ∧ roundingPage.form.upi_sales = some 0 ∧ roundingPage.form.credit_sales = some 0 :=
  ⟨rfl, rfl, rfl, rfl, rfl, rfl, rfl, rfl, rfl, rfl, rfl, rfl⟩

theorem rounding_reachable : Reachable roundingPage :=
  reachable_applyEdits _ (Reachable.init _)

theorem rounding_valid : checkValidity roundingPage.form = true := by
  obtain ⟨h1, _, h2, h3, h4, h5, h6, h7, h8, h9, h10, h11⟩ := rounding_raw
  simp only [checkValidity, h1, h2, h3, h4, h5, h6, h7, h8, h9, h10, h11, requiredOk, stepOk]
  norm_num
  constructor <;> decide

theorem rounding_newEntry : saveSalesEntry.newEntry exampleEnv roundingPage = roundingRecord := by
  obtain ⟨d1, d2, d3, d4⟩ := newEntry_derived exampleEnv rounding_reachable rounding_valid
  obtain ⟨h1, h0, h2, h3, h4, h5, h6, h7, h8, h9, h10, h11⟩ := rounding_raw
  have e1 : calculateSales.totalLiters roundingPage.form = 1 / 4 := by
    simp only [calculateSales.totalLiters, calculateSales.opening, calculateSales.closing,
      calculateSales.testSales, h4, h5, h6, orZero_parseFloat_some]
    norm_num
  have e2 : calculateSales.expectedAmount roundingPage.form = 361 / 16 := by
    simp only [calculateSales.expectedAmount, e1, calculateSales.rate, h7,
      orZero_parseFloat_some]
    norm_num
  have e3 : calculateActualAmount.actualAmount roundingPage.form = 564 / 25 := by
    simp only [calculateActualAmount.actualAmount, h8, h9, h10, h11, orZero_parseFloat_some]
    norm_num
  have e4 : toFixed2 (361 / 16) = 564 / 25 := by norm_num [toFixed2]
  rw [e1] at d1
  rw [e2, e4] at d2 d4
  rw [e3] at d3 d4
  have d5 : (saveSalesEntry.newEntry exampleEnv roundingPage).short_excess = 0 := by
    rw [d4]; norm_num
  have key : saveSalesEntry.newEntry exampleEnv roundingPage =
      { roundingRecord with
        total_liters := (saveSalesEntry.newEntry exampleEnv roundingPage).total_liters
        expected_amount := (saveSalesEntry.newEntry exampleEnv roundingPage).expected_amount
        actual_amount := (saveSalesEntry.newEntry exampleEnv roundingPage).actual_amount
        short_excess := (saveSalesEntry.newEntry exampleEnv roundingPage).short_excess } := rfl
  rw [key, d1, d2, d3, d5]
  rfl

theorem toJson_ofJson (v : Option ℚ) : JsVal.toJson (JsVal.ofJson v) = v := by
  cases v <;> rfl

theorem mapRaw_mapRaw {α β γ : Type} (g : α → β) (k : β → γ) (r : SalesRecord α) :
    (r.mapRaw g).mapRaw k = r.mapRaw (fun v => k (g v)) := rfl

theorem mapRaw_toJson_ofJson (s : StoredSale) :
    (s.mapRaw JsVal.ofJson).mapRaw JsVal.toJson = s := by
  cases s
  simp [SalesRecord.mapRaw, toJson_ofJson]

theorem getSalesData_jsonStringify (l : List Sale) :
    getSalesData (some (jsonStringify l)) = Except.ok (l.map jsonRoundTrip) := by
  simp [getSalesData, jsonStringify, jsonRoundTrip, mapRaw_mapRaw, List.map_map, Function.comp_def]

theorem roundTrip_of_getSalesData {st : Storage} {prior : List Sale}
    (h : getSalesData st = Except.ok prior) : prior.map jsonRoundTrip = prior := by
  have key : ∀ rs : List StoredSale,
      (rs.map (SalesRecord.mapRaw JsVal.ofJson)).map jsonRoundTrip
        = rs.map (SalesRecord.mapRaw JsVal.ofJson) := by
    intro rs
    simp only [List.map_map, List.map_inj_left, Function.comp_def, jsonRoundTrip]
    intro s _
    rw [← mapRaw_mapRaw JsVal.toJson JsVal.ofJson, mapRaw_toJson_ofJson]
  match st, h with
  | none, h => cases h; rfl
  | some Blob.emptyText, h => cases h; rfl
  | some (Blob.array rs), h =>
    simp only [getSalesData] at h
    cases h
    exact key rs
  | some Blob.corrupt, h => simp [getSalesData] at h

theorem jsSort_singleton (r : Sale) : jsSort [r] = [r] := rfl

theorem mem_jsSort {l : List Sale} {r : Sale} : r ∈ jsSort l ↔ r ∈ l := by
  unfold jsSort
  exact List.mem_insertionSort _

theorem perm_jsSort (l : List Sale) : (jsSort l).Perm l := by
  unfold jsSort
  exact List.perm_insertionSort _ l

theorem loadSalesHistory_of_ok {st : Storage} {coll : List Sale}
    (h : getSalesData st = Except.ok coll) :
    loadSalesHistory st = Except.ok (jsSort coll) := by
  unfold loadSalesHistory
  rw [h]
  cases coll with
  | nil => rfl
  | cons a l => simp

theorem liveClass_shortage (q : ℚ) : calculateActualAmount.className q = Mismatch.Shortage ↔ q < 0 := by
  unfold calculateActualAmount.className
  split_ifs with h1 h2 <;> simp [h1]

theorem liveClass_excess (q : ℚ) : calculateActualAmount.className q = Mismatch.Excess ↔ 0 < q := by
  unfold calculateActualAmount.className
  split_ifs with h1 h2
  · simp only [reduceCtorEq, false_iff, not_lt]
    exact le_of_lt h1
  · simpa using h2
  · simpa using h2

theorem liveClass_match (q : ℚ) : calculateActualAmount.className q = Mismatch.Match ↔ q = 0 := by
  unfold calculateActualAmount.className
  split_ifs with h1 h2
  · simp only [reduceCtorEq, false_iff]
    exact ne_of_lt h1
  · simp only [reduceCtorEq, false_iff]
    exact ne_of_gt h2
  · simp only [true_iff]
    exact le_antisymm (not_lt.mp h2) (not_lt.mp h1)

theorem sparse_valid : checkValidity sparsePage.form = true := by
  have h1 : sparsePage.form.date = "2024-01-05" := rfl
  have h2 : sparsePage.form.attendant = "Asha" := rfl
  have h3 : sparsePage.form.pump_no = some 1 := rfl
  have h4 : sparsePage.form.opening_reading = some 100 := rfl
  have h5 : sparsePage.form.closing_reading = some 150 := rfl
  have h6 : sparsePage.form.test_sales = none := rfl
  have h7 : sparsePage.form.rate = some 90 := rfl
  have h8 : sparsePage.form.cash_sales = none := rfl
  have h9 : sparsePage.form.card_sales = none := rfl
  have h10 : sparsePage.form.upi_sales = none := rfl
  have h11 : sparsePage.form.credit_sales = none := rfl
  simp only [checkValidity, h1, h2, h3, h4, h5, h6, h7, h8, h9, h10, h11, requiredOk, stepOk]
  norm_num
  constructor <;> decide

theorem saveSalesEntry_of_ok (env : Env) (st : Storage) (p : Page) (prior : List Sale)
    (hg : getSalesData st = Except.ok prior) :
    saveSalesEntry env st p =
      if env.quotaOk = true then
        { storage := some (jsonStringify (prior ++ [saveSalesEntry.newEntry env p]))
          result := some (saveSalesEntry.newEntry env p)
          toasts := [] }
      else { storage := st, result := none, toasts := [Toast.errorSaving] } := by
  unfold saveSalesEntry
  rw [hg]
  by_cases hq : env.quotaOk = true <;> simp [setItem, hq]

theorem checkValidity_of_missing {f : SalesForm}
    (h : f.date = "" ∨ f.attendant = "" ∨ f.pump_no = none ∨ f.opening_reading = none
      ∨ f.closing_reading = none ∨ f.rate = none) :
    checkValidity f = false := by
  rw [← Bool.not_eq_true]
  intro hv
  obtain ⟨⟨h1, h2, h3, h4, h5, h6⟩, _⟩ := checkValidity_spec hv
  rcases h with h | h | h | h | h | h
  · exact h1 h
  · exact h2 h
  · rw [h] at h3; simp at h3
  · rw [h] at h4; simp at h4
  · rw [h] at h5; simp at h5
  · rw [h] at h6; simp at h6

/-! ### Calendar arithmetic -/

theorem daysBeforeMonth_succ (y m : ℕ) (hm : 1 ≤ m) :
    daysBeforeMonth y (m + 1) = daysBeforeMonth y m + daysInMonth y m := by
  obtain ⟨k, rfl⟩ : ∃ k, m = k + 1 := ⟨m - 1, by omega⟩
  rfl

theorem daysBeforeMonth_mono (y : ℕ) {m n : ℕ} (h : m ≤ n) :
    daysBeforeMonth y m ≤ daysBeforeMonth y n := by
  induction n with
  | zero =>
    have : m = 0 := by omega
    subst this
    exact le_refl _
  | succ k ih =>
    rcases Nat.eq_or_lt_of_le h with h1 | h1
    · rw [h1]
    · have hk : m ≤ k := by omega
      rcases Nat.eq_zero_or_pos k with h0 | h0
      · subst h0
        have : m = 0 := by omega
        subst this
        simp [daysBeforeMonth]
      · rw [daysBeforeMonth_succ y k h0]
        exact le_trans (ih hk) (Nat.le_add_right _ _)

theorem daysBeforeMonth_thirteen (y : ℕ) :
    daysBeforeMonth y 13 = 365 + (if isLeapYear y = true then 1 else 0) := by
  have e : daysBeforeMonth y 13
      = 31 + daysInMonth y 2 + 31 + 30 + 31 + 30 + 31 + 31 + 30 + 31 + 30 + 31 := rfl
  have e2 : daysInMonth y 2 = if isLeapYear y = true then 29 else 28 := rfl
  rw [e, e2]
  split_ifs <;> rfl

theorem daysBeforeYear_succ (y : ℕ) :
    daysBeforeYear (y + 1) = daysBeforeYear y + 365 + (if isLeapYear y = true then 1 else 0) := by
  have h4 : (y + 1 + 3) / 4 = (y + 3) / 4 + (if y % 4 = 0 then 1 else 0) := by
    split_ifs <;> omega
  have h100 : (y + 1 + 99) / 100 = (y + 99) / 100 + (if y % 100 = 0 then 1 else 0) := by
    split_ifs <;> omega
  have h400 : (y + 1 + 399) / 400 = (y + 399) / 400 + (if y % 400 = 0 then 1 else 0) := by
    split_ifs <;> omega
  have hle : (y + 99) / 100 ≤ (y + 3) / 4 := by omega
  have d1 : y % 100 = 0 → y % 4 = 0 := by omega
  have d2 : y % 400 = 0 → y % 100 = 0 := by omega
  unfold daysBeforeYear isLeapYear
  rw [h4, h100, h400]
  generalize (y + 3) / 4 = a at *
  generalize (y + 99) / 100 = b at *
  generalize (y + 399) / 400 = c at *
  by_cases c4 : y % 4 = 0 <;> by_cases c100 : y % 100 = 0 <;> by_cases c400 : y % 400 = 0 <;>
    simp [c4, c100, c400] at d1 d2 ⊢ <;> omega

theorem daysBeforeYear_mono {y z : ℕ} (h : y ≤ z) : daysBeforeYear y ≤ daysBeforeYear z := by
  induction z with
  | zero =>
    have : y = 0 := by omega
    subst this
    exact le_refl _
  | succ k ih =>
    rcases Nat.eq_or_lt_of_le h with h1 | h1
    · rw [h1]
    · have hk : y ≤ k := by omega
      have := daysBeforeYear_succ k
      have := ih hk
      omega

theorem dayIndex_lt_of_year_lt {y m d z : ℕ} (hm : 1 ≤ m ∧ m ≤ 12)
    (hd : 1 ≤ d ∧ d ≤ daysInMonth y m) (hyz : y < z) (n e : ℕ) :
    dayIndex y m d < dayIndex z n e := by
  have h1 := daysBeforeMonth_succ y m hm.1
  have h2 : daysBeforeMonth y (m + 1) ≤ daysBeforeMonth y 13 :=
    daysBeforeMonth_mono y (by omega)
  have h3 := daysBeforeMonth_thirteen y
  have h4 := daysBeforeYear_succ y
  have h5 : daysBeforeYear (y + 1) ≤ daysBeforeYear z := daysBeforeYear_mono (by omega)
  unfold dayIndex
  split_ifs at h3 h4 <;> omega

theorem dayIndex_lt_of_month_lt {y m d n : ℕ} (hm : 1 ≤ m)
    (hd : 1 ≤ d ∧ d ≤ daysInMonth y m) (hmn : m < n) (e : ℕ) :
    dayIndex y m d < dayIndex y n e := by
  have h1 := daysBeforeMonth_succ y m hm
  have h2 : daysBeforeMonth y (m + 1) ≤ daysBeforeMonth y n := daysBeforeMonth_mono y (by omega)
  unfold dayIndex
  omega

theorem parseIsoDate_valid {s : String} {y m d : ℕ} (h : parseIsoDate s = some (y, m, d)) :
    (1 ≤ m ∧ m ≤ 12) ∧ (1 ≤ d ∧ d ≤ daysInMonth y m) := by
  unfold parseIsoDate at h
  split at h
  · split at h
    · dsimp only at h
      split_ifs at h with hc
      simp only [Option.some.injEq, Prod.mk.injEq] at h
      obtain ⟨rfl, rfl, rfl⟩ := h
      exact ⟨⟨hc.1, hc.2.1⟩, hc.2.2.1, hc.2.2.2⟩
    · exact absurd h (by simp)
  · exact absurd h (by simp)

theorem dateLe_of_sortKey_le {a b : Sale} (ha : (parseIsoDate a.date).isSome = true)
    (hb : (parseIsoDate b.date).isSome = true) (h : sortKey b ≤ sortKey a) :
    dateLe b.date a.date := by
  obtain ⟨⟨y1, m1, d1⟩, h1⟩ := Option.isSome_iff_exists.mp ha
  obtain ⟨⟨y2, m2, d2⟩, h2⟩ := Option.isSome_iff_exists.mp hb
  obtain ⟨v1, w1⟩ := parseIsoDate_valid h1
  obtain ⟨v2, w2⟩ := parseIsoDate_valid h2
  simp only [sortKey, h1, h2] at h
  simp only [dateLe, h1, h2]
  by_contra hn
  have hlt : y1 < y2 ∨ (y1 = y2 ∧ (m1 < m2 ∨ (m1 = m2 ∧ d1 < d2))) := by omega
  rcases hlt with hy | ⟨rfl, hm | ⟨rfl, hd⟩⟩
  · have := dayIndex_lt_of_year_lt v1 w1 hy m2 d2
    omega
  · have := dayIndex_lt_of_month_lt v1.1 w1 hm d2
    omega
  · unfold dayIndex at h
    omega

/-! ### The stable sort -/

theorem orderedInsert_congr {α : Type} (r s : α → α → Prop) [DecidableRel r] [DecidableRel s]
    (a : α) (l : List α) (h : ∀ b ∈ l, r a b ↔ s a b) :
    l.orderedInsert r a = l.orderedInsert s a := by
  induction l with
  | nil => rfl
  | cons b l ih =>
    have hb : r a b ↔ s a b := h b (List.mem_cons_self b l)
    have hl : ∀ c ∈ l, r a c ↔ s a c := fun c hc => h c (List.mem_cons_of_mem b hc)
    by_cases hr : r a b
    · simp [List.orderedInsert, hr, hb.mp hr]
    · have hs : ¬ s a b := fun hs => hr (hb.mpr hs)
      simp [List.orderedInsert, hr, hs, ih hl]

theorem insertionSort_congr {α : Type} (r s : α → α → Prop) [DecidableRel r] [DecidableRel s]
    (l : List α) (h : ∀ a ∈ l, ∀ b ∈ l, r a b ↔ s a b) :
    l.insertionSort r = l.insertionSort s := by
  induction l with
  | nil => rfl
  | cons a l ih =>
    have hl : ∀ x ∈ l, ∀ y ∈ l, r x y ↔ s x y := fun x hx y hy =>
      h x (List.mem_cons_of_mem a hx) y (List.mem_cons_of_mem a hy)
    simp only [List.insertionSort]
    rw [ih hl]
    apply orderedInsert_congr
    intro b hb
    exact h a (List.mem_cons_self a l) b (List.mem_cons_of_mem a ((List.mem_insertionSort s).mp hb))

theorem filter_insertionSort {α : Type} (r : α → α → Prop) [DecidableRel r] (q : α → Bool)
    (l : List α) (h : ∀ a ∈ l, ∀ b ∈ l, q a = true → q b = true → r a b) :
    (l.insertionSort r).filter q = l.filter q := by
  have hpw : (l.filter q).Pairwise r := by
    apply List.pairwise_of_forall_mem_list
    intro a ha b hb
    rw [List.mem_filter] at ha hb
    exact h a ha.1 b hb.1 ha.2 hb.2
  have hsub : List.Sublist (l.filter q) (l.insertionSort r) :=
    List.sublist_insertionSort hpw (List.filter_sublist l)
  have hsub2 : List.Sublist (l.filter q) ((l.insertionSort r).filter q) := by
    have := hsub.filter q
    simpa [List.filter_filter] using this
  have hlen : (l.filter q).length = ((l.insertionSort r).filter q).length :=
    ((List.perm_insertionSort r l).filter q).length_eq.symm
  exact (hsub2.eq_of_length hlen).symm

theorem sortCompare_of_valid {a b : Sale} (ha : (parseIsoDate a.date).isSome = true)
    (hb : (parseIsoDate b.date).isSome = true) :
    sortCompare a b ≤ 0 ↔ sortKey b ≤ sortKey a := by
  obtain ⟨⟨y1, m1, d1⟩, h1⟩ := Option.isSome_iff_exists.mp ha
  obtain ⟨⟨y2, m2, d2⟩, h2⟩ := Option.isSome_iff_exists.mp hb
  simp only [sortCompare, dateValue, sortKey, h1, h2]
  constructor
  · intro h
    have : ((dayIndex y2 m2 d2 : ℕ) : ℚ) ≤ (dayIndex y1 m1 d1 : ℕ) := by linarith
    exact_mod_cast this
  · intro h
    have : ((dayIndex y2 m2 d2 : ℕ) : ℚ) ≤ (dayIndex y1 m1 d1 : ℕ) := by exact_mod_cast h
    linarith

theorem sortCompare_same_date {a b : Sale} (h : a.date = b.date) : sortCompare a b ≤ 0 := by
  unfold sortCompare
  rw [h]
  cases dateValue b.date with
  | num t => simp
  | nan => simp
  | null => simp

theorem jsSort_sorted {l : List Sale} (hv : ∀ r ∈ l, (parseIsoDate r.date).isSome = true) :
    (jsSort l).Pairwise (fun a b => dateLe b.date a.date) := by
  have hcongr : jsSort l = l.insertionSort (fun a b => sortKey b ≤ sortKey a) := by
    unfold jsSort
    apply insertionSort_congr
    intro a ha b hb
    exact sortCompare_of_valid (hv a ha) (hv b hb)
  haveI : IsTotal Sale (fun a b => sortKey b ≤ sortKey a) := ⟨fun a b => le_total _ _⟩
  haveI : IsTrans Sale (fun a b => sortKey b ≤ sortKey a) :=
    ⟨fun a b c h1 h2 => le_trans h2 h1⟩
  have hs : (l.insertionSort (fun a b => sortKey b ≤ sortKey a)).Pairwise
      (fun a b => sortKey b ≤ sortKey a) :=
    List.sorted_insertionSort (fun a b => sortKey b ≤ sortKey a) l
  rw [hcongr]
  refine hs.imp_of_mem ?_
  intro a b ha hb hab
  rw [List.mem_insertionSort] at ha hb
  exact dateLe_of_sortKey_le (hv a ha) (hv b hb) hab

theorem jsSort_stable (l : List Sale) (d : String) :
    (jsSort l).filter (fun r => decide (r.date = d)) = l.filter (fun r => decide (r.date = d)) := by
  unfold jsSort
  apply filter_insertionSort
  intro a _ b _ ha hb
  simp only [decide_eq_true_eq] at ha hb
  exact sortCompare_same_date (ha.trans hb.symm)

theorem jsSort_same_date (l : List Sale) (d : String) (h : ∀ r ∈ l, r.date = d) :
    jsSort l = l := by
  have h1 := jsSort_stable l d
  have e1 : l.filter (fun r => decide (r.date = d)) = l := by
    rw [List.filter_eq_self]
    intro r hr
    simpa using h r hr
  have e2 : (jsSort l).filter (fun r => decide (r.date = d)) = jsSort l := by
    rw [List.filter_eq_self]
    intro r hr
    simpa using h r (mem_jsSort.mp hr)
  rw [e1, e2] at h1
  exact h1

theorem filterSales_of_ok {st : Storage} {coll : List Sale} (filterDate : String)
    (h : getSalesData st = Except.ok coll) :
    filterSales filterDate st = Except.ok (jsSort (filterSales.filteredData filterDate coll)) := by
  unfold filterSales
  rw [h]
  dsimp only
  cases hf : filterSales.filteredData filterDate coll with
  | nil => rfl
  | cons a l => simp

theorem example_dates_valid :
    ∀ r ∈ [roundingRecord, laterRecord, scenarioRecord], (parseIsoDate r.date).isSome = true := by
  intro r hr
  simp only [List.mem_cons, List.mem_singleton, List.not_mem_nil, or_false] at hr
  rcases hr with rfl | rfl | rfl <;> rfl

/-! ### Deleting and exporting -/

theorem map_eq_self_mem {α : Type} (f : α → α) :
    ∀ (l : List α), l.map f = l → ∀ x ∈ l, f x = x := by
  intro l
  induction l with
  | nil => intro _ x hx; cases hx
  | cons a l ih =>
    intro h x hx
    simp only [List.map_cons, List.cons.injEq] at h
    rcases List.mem_cons.mp hx with rfl | hx
    · exact h.1
    · exact ih h.2 x hx

theorem map_eq_self_of_mem {α : Type} (f : α → α) (l : List α) (h : ∀ x ∈ l, f x = x) :
    l.map f = l := by
  induction l with
  | nil => rfl
  | cons a l ih =>
    simp only [List.map_cons]
    rw [h a (List.mem_cons_self a l), ih (fun x hx => h x (List.mem_cons_of_mem a hx))]

theorem roundTrip_mem_of_getSalesData {st : Storage} {coll : List Sale}
    (h : getSalesData st = Except.ok coll) : ∀ r ∈ coll, jsonRoundTrip r = r :=
  map_eq_self_mem jsonRoundTrip coll (roundTrip_of_getSalesData h)

theorem getSalesData_stringify_filter {st : Storage} {coll : List Sale}
    (h : getSalesData st = Except.ok coll) (q : Sale → Bool) :
    getSalesData (some (jsonStringify (coll.filter q))) = Except.ok (coll.filter q) := by
  rw [getSalesData_jsonStringify]
  congr 1
  apply map_eq_self_of_mem
  intro r hr
  exact roundTrip_mem_of_getSalesData h r (List.mem_filter.mp hr).1

theorem deleteSalesEntry_of_ok (env : Env) (st : Storage) (saleId : ℕ) (coll : List Sale)
    (hg : getSalesData st = Except.ok coll) (hq : env.quotaOk = true) :
    deleteSalesEntry true env st saleId =
      { storage := some (jsonStringify (coll.filter (fun sale => decide (sale.id ≠ saleId))))
        toasts := [Toast.deletedOk] } := by
  unfold deleteSalesEntry
  simp only [Bool.not_true, Bool.false_eq_true, if_false, hg, setItem, hq, if_true]
  rw [loadSalesHistory_of_ok (getSalesData_jsonStringify _)]

theorem exportSales_of_empty {st : Storage} (h : getSalesData st = Except.ok []) :
    exportSales st = { csv := none, toasts := [Toast.noSalesData] } := by
  unfold exportSales
  rw [h]
  rfl

theorem toFixedCell_of_ne_null {v : JsVal} (h : v ≠ JsVal.null) :
    ∃ c, toFixedCell v = Except.ok c := by
  cases v with
  | num q => exact ⟨_, rfl⟩
  | nan => exact ⟨_, rfl⟩
  | null => exact absurd rfl h

theorem exportSales_row_of_present {r : Sale} (h : PaymentsPresent r) :
    ∃ line, exportSales.row r = Except.ok line := by
  obtain ⟨c1, h1⟩ := toFixedCell_of_ne_null h.1
  obtain ⟨c2, h2⟩ := toFixedCell_of_ne_null h.2.1
  obtain ⟨c3, h3⟩ := toFixedCell_of_ne_null h.2.2.1
  obtain ⟨c4, h4⟩ := toFixedCell_of_ne_null h.2.2.2
  unfold exportSales.row
  rw [h1, h2, h3, h4]
  exact ⟨_, rfl⟩

theorem exportSales_rows_of_present :
    ∀ coll : List Sale, (∀ r ∈ coll, PaymentsPresent r) →
      ∃ lines, exportSales.rows coll = Except.ok lines
        ∧ List.Forall₂ (fun r line => exportSales.row r = Except.ok line) coll lines := by
  intro coll
  induction coll with
  | nil => intro _; exact ⟨[], rfl, List.Forall₂.nil⟩
  | cons a l ih =>
    intro h
    obtain ⟨line, hl⟩ := exportSales_row_of_present (h a (List.mem_cons_self a l))
    obtain ⟨lines, hls, hf⟩ := ih (fun r hr => h r (List.mem_cons_of_mem a hr))
    refine ⟨line :: lines, ?_, List.Forall₂.cons hl hf⟩
    simp only [exportSales.rows, hl, hls]

theorem exportSales_of_rows {st : Storage} {coll : List Sale} {lines : List (List CsvCell)}
    (hg : getSalesData st = Except.ok coll) (hne : coll ≠ [])
    (hl : exportSales.rows coll = Except.ok lines) :
    exportSales st =
      { csv := some (exportSales.headers.map CsvCell.text :: lines)
        toasts := [Toast.exportedOk] } := by
  unfold exportSales
  rw [hg]
  have : ¬ coll.length = 0 := by
    intro h0
    exact hne (List.length_eq_zero.mp h0)
  simp only [this, if_false, hl]

theorem exportSales_of_rows_error {st : Storage} {coll : List Sale} {e : JsError}
    (hg : getSalesData st = Except.ok coll) (hne : coll ≠ [])
    (hl : exportSales.rows coll = Except.error e) :
    exportSales st = { csv := none, toasts := [Toast.errorExporting] } := by
  unfold exportSales
  rw [hg]
  have : ¬ coll.length = 0 := by
    intro h0
    exact hne (List.length_eq_zero.mp h0)
  simp only [this, if_false, hl]

theorem jsSort_of_sorted {l : List Sale} (h : l.Pairwise (fun a b => sortCompare a b ≤ 0)) :
    jsSort l = l := by
  unfold jsSort
  exact List.Sorted.insertionSort_eq h

theorem jsSort_pair_swap {a b : Sale} (ha : (parseIsoDate a.date).isSome = true)
    (hb : (parseIsoDate b.date).isSome = true) (h : sortKey a < sortKey b) :
    jsSort [a, b] = [b, a] := by
  have hn : ¬ sortCompare a b ≤ 0 := by
    rw [sortCompare_of_valid ha hb]
    omega
  simp [jsSort, List.insertionSort, List.orderedInsert, hn]

/-! ### Identifiers along a run -/

theorem submitHandler_storage (env : Env) (st : Storage) (p : Page) :
    (submitHandler env st p).storage = st
      ∨ ∃ prior, getSalesData st = Except.ok prior
          ∧ (submitHandler env st p).storage
            = some (jsonStringify (prior ++ [saveSalesEntry.newEntry env p])) := by
  by_cases hv : checkValidity p.form = true
  · cases hg : getSalesData st with
    | error e =>
      left
      simp [submitHandler, saveSalesEntry, hv, hg]
    | ok prior =>
      by_cases hq : env.quotaOk = true
      · right
        exact ⟨prior, rfl, by rw [submitHandler_of_valid env st prior hv hg hq]⟩
      · left
        simp [submitHandler, saveSalesEntry, hv, hg, setItem, hq]
  · left
    simp [submitHandler, hv]

theorem deleteSalesEntry_storage (confirmed : Bool) (env : Env) (st : Storage) (saleId : ℕ) :
    (deleteSalesEntry confirmed env st saleId).storage = st
      ∨ ∃ coll, getSalesData st = Except.ok coll
          ∧ (deleteSalesEntry confirmed env st saleId).storage
            = some (jsonStringify (coll.filter (fun sale => decide (sale.id ≠ saleId)))) := by
  cases confirmed with
  | false => left; rfl
  | true =>
    cases hg : getSalesData st with
    | error e =>
      left
      simp [deleteSalesEntry, hg]
    | ok coll =>
      by_cases hq : env.quotaOk = true
      · right
        exact ⟨coll, rfl, by rw [deleteSalesEntry_of_ok env st saleId coll hg hq]⟩
      · left
        simp [deleteSalesEntry, hg, setItem, hq]

theorem jsonRoundTrip_id (r : Sale) : (jsonRoundTrip r).id = r.id := rfl

theorem idsIncreasing_mono {st : Storage} {cs ds : List ℕ} (h : IdsIncreasing st cs)
    (hsub : ∀ a ∈ cs, a ∈ ds) : IdsIncreasing st ds := by
  obtain ⟨coll, h1, h2, h3⟩ := h
  exact ⟨coll, h1, h2, fun r hr => hsub _ (h3 r hr)⟩

theorem idsIncreasing_create (env : Env) (st : Storage) (p : Page) (cs : List ℕ)
    (h : IdsIncreasing st cs) (hlt : ∀ a ∈ cs, a < env.now) :
    IdsIncreasing (StoreOp.apply st (StoreOp.create env p)) (cs ++ [env.now]) := by
  rcases submitHandler_storage env st p with hst | ⟨prior, hg, hst⟩
  · simp only [StoreOp.apply, hst]
    exact idsIncreasing_mono h (fun a ha => List.mem_append_left _ ha)
  · obtain ⟨coll, h1, h2, h3⟩ := h
    rw [hg] at h1
    cases h1
    refine ⟨(prior ++ [saveSalesEntry.newEntry env p]).map jsonRoundTrip, ?_, ?_, ?_⟩
    · simp only [StoreOp.apply, hst]
      exact getSalesData_jsonStringify _
    · simp only [List.map_map, List.map_append, List.map_cons, List.map_nil,
        Function.comp_def, jsonRoundTrip_id]
      rw [List.pairwise_append]
      refine ⟨h2, List.pairwise_singleton _ _, ?_⟩
      intro a ha b hb
      rw [List.mem_singleton] at hb
      subst hb
      obtain ⟨r, hr, rfl⟩ := List.mem_map.mp ha
      exact hlt _ (h3 r hr)
    · intro r hr
      obtain ⟨s, hs, rfl⟩ := List.mem_map.mp hr
      rw [jsonRoundTrip_id]
      rcases List.mem_append.mp hs with hs | hs
      · exact List.mem_append_left _ (h3 s hs)
      · rw [List.mem_singleton] at hs
        subst hs
        exact List.mem_append_right _ (List.mem_singleton.mpr rfl)

theorem idsIncreasing_delete (confirmed : Bool) (env : Env) (st : Storage) (saleId : ℕ)
    (cs : List ℕ) (h : IdsIncreasing st cs) :
    IdsIncreasing (StoreOp.apply st (StoreOp.delete confirmed env saleId)) cs := by
  rcases deleteSalesEntry_storage confirmed env st saleId with hst | ⟨coll, hg, hst⟩
  · simp only [StoreOp.apply, hst]
    exact h
  · obtain ⟨coll1, h1, h2, h3⟩ := h
    rw [hg] at h1
    cases h1
    refine ⟨coll.filter (fun sale => decide (sale.id ≠ saleId)), ?_, ?_, ?_⟩
    · simp only [StoreOp.apply, hst]
      exact getSalesData_stringify_filter hg _
    · exact h2.sublist ((List.filter_sublist coll).map _)
    · intro r hr
      exact h3 r (List.mem_filter.mp hr).1

theorem idsIncreasing_runOps :
    ∀ (ops : List StoreOp) (st : Storage) (cs : List ℕ), IdsIncreasing st cs →
      (cs ++ createClocks ops).Pairwise (fun a b => a < b) →
      IdsIncreasing (runOps ops st) (cs ++ createClocks ops) := by
  intro ops
  induction ops with
  | nil =>
    intro st cs h _
    simpa [runOps, createClocks] using h
  | cons op ops ih =>
    intro st cs h hp
    cases op with
    | create env p =>
      have e : cs ++ createClocks (StoreOp.create env p :: ops)
          = (cs ++ [env.now]) ++ createClocks ops := by
        simp [createClocks]
      rw [e] at hp ⊢
      have hlt : ∀ a ∈ cs, a < env.now := by
        intro a ha
        have h1 := (List.pairwise_append.mp hp).1
        exact (List.pairwise_append.mp h1).2.2 a ha env.now (List.mem_singleton.mpr rfl)
      exact ih _ _ (idsIncreasing_create env st p cs h hlt) hp
    | delete confirmed env saleId =>
      exact ih _ _ (idsIncreasing_delete confirmed env st saleId cs h) hp

theorem example_payments_present :
    ∀ r ∈ [roundingRecord, laterRecord], PaymentsPresent r := by
  intro r hr
  simp only [List.mem_cons, List.mem_singleton, List.not_mem_nil, or_false] at hr
  rcases hr with rfl | rfl <;>
    exact ⟨fun h => JsVal.noConfusion h, fun h => JsVal.noConfusion h,
      fun h => JsVal.noConfusion h, fun h => JsVal.noConfusion h⟩

theorem example_loadSalesHistory :
    loadSalesHistory (some (jsonStringify [roundingRecord, laterRecord]))
      = Except.ok [laterRecord, roundingRecord] := by
  have hg : getSalesData (some (jsonStringify [roundingRecord, laterRecord]))
      = Except.ok [roundingRecord, laterRecord] := rfl
  rw [loadSalesHistory_of_ok hg, @jsSort_pair_swap roundingRecord laterRecord rfl rfl (by decide)]

theorem two_creates_same_clock :
    getSalesData
        (runOps [StoreOp.create exampleEnv scenarioPage, StoreOp.create exampleEnv roundingPage]
          none)
      = Except.ok [scenarioRecord, roundingRecord] := by
  have e : runOps [StoreOp.create exampleEnv scenarioPage, StoreOp.create exampleEnv roundingPage]
      none
      = (submitHandler exampleEnv (submitHandler exampleEnv none scenarioPage).storage
          roundingPage).storage := rfl
  have h1 := submitHandler_of_valid exampleEnv none [] scenario_valid rfl rfl
  rw [scenario_newEntry] at h1
  have h2 := submitHandler_of_valid exampleEnv (some (jsonStringify [scenarioRecord]))
    [scenarioRecord] rounding_valid rfl rfl
  rw [rounding_newEntry] at h2
  rw [e, h1]
  simp only [List.nil_append]
  rw [h2]
  rfl

/-! ## The claims -/

/-- C5.  The live display (`calculateActualAmount.className`, applied by `calculateActualAmount` to its
`mismatch`), the detail view (`viewSalesDetails.mismatchText`) and the print view (`saveAndPrint.mismatchText`) are one
and the same mapping: Shortage exactly for negative values, Excess exactly for positive
values, Match exactly for zero. -/
theorem C5_classification (q : ℚ) :
    (calculateActualAmount.className q = Mismatch.Shortage ↔ q < 0)
      ∧ (calculateActualAmount.className q = Mismatch.Excess ↔ 0 < q)
      ∧ (calculateActualAmount.className q = Mismatch.Match ↔ q = 0)
      ∧ viewSalesDetails.mismatchText q = calculateActualAmount.className q
      ∧ saveAndPrint.mismatchText q = calculateActualAmount.className q
      ∧ ∀ p : Page, (calculateActualAmount p).display.short_excess_class
          = calculateActualAmount.className (calculateActualAmount.mismatch p.form) :=
  ⟨liveClass_shortage q, liveClass_excess q, liveClass_match q, rfl, rfl, fun _ => rfl⟩

/-- C6, evaluated at the failing input: `sparsePage` passes `checkValidity`, is saved
to an empty store, and the persisted record holds `null` (`none`), not `0`, in
`test_sales` and in the four payment fields. -/
theorem C6_empty_optional_persisted_null :
    checkValidity sparsePage.form = true
      ∧ ∃ s : StoredSale,
          (submitHandler exampleEnv none sparsePage).storage = some (Blob.array [s])
            ∧ s.test_sales = none ∧ s.cash_sales = none ∧ s.card_sales = none
            ∧ s.upi_sales = none ∧ s.credit_sales = none
            ∧ s.test_sales ≠ some 0 := by
  refine ⟨sparse_valid,
    (saveSalesEntry.newEntry exampleEnv sparsePage).mapRaw JsVal.toJson, ?_, rfl, rfl, rfl,
    rfl, rfl, ?_⟩
  · rw [submitHandler_of_valid exampleEnv none [] sparse_valid rfl rfl]
    rfl
  · have : ((saveSalesEntry.newEntry exampleEnv sparsePage).mapRaw JsVal.toJson).test_sales
        = none := rfl
    rw [this]
    simp

/-- C7.  `saveSalesEntry` is an atomic append.  Let `prior` be the collection read
from the slot.  Either the write succeeds, the slot then holds the serialization of
`prior` followed by the new entry, reading it back gives `prior` unchanged and in order
followed by the new entry (as JSON returns it), and the new entry is returned; or the
write fails, the slot is exactly as before and `null` is returned. -/
theorem C7_atomic_append (env : Env) (st : Storage) (p : Page) (prior : List Sale)
    (hg : getSalesData st = Except.ok prior) :
    (env.quotaOk = true
        ∧ (saveSalesEntry env st p).storage
            = some (jsonStringify (prior ++ [saveSalesEntry.newEntry env p]))
        ∧ getSalesData (saveSalesEntry env st p).storage
            = Except.ok (prior ++ [jsonRoundTrip (saveSalesEntry.newEntry env p)])
        ∧ (saveSalesEntry env st p).result = some (saveSalesEntry.newEntry env p))
      ∨ (env.quotaOk = false
        ∧ (saveSalesEntry env st p).storage = st
        ∧ getSalesData (saveSalesEntry env st p).storage = Except.ok prior
        ∧ (saveSalesEntry env st p).result = none) := by
  rw [saveSalesEntry_of_ok env st p prior hg]
  by_cases hq : env.quotaOk = true
  · left
    rw [if_pos hq]
    refine ⟨hq, rfl, ?_, rfl⟩
    rw [getSalesData_jsonStringify, List.map_append, roundTrip_of_getSalesData hg]
    rfl
  · right
    rw [if_neg hq]
    exact ⟨Bool.eq_false_iff.mpr hq, rfl, hg, rfl⟩

/-- Witness for C7: the scenario page saved on top of a store that already holds one
record. -/
theorem C7_atomic_append_witness :
    getSalesData (some (jsonStringify [roundingRecord])) = Except.ok [roundingRecord]
      ∧ ((exampleEnv.quotaOk = true
          ∧ (saveSalesEntry exampleEnv (some (jsonStringify [roundingRecord])) scenarioPage).storage
              = some (jsonStringify
                  ([roundingRecord] ++ [saveSalesEntry.newEntry exampleEnv scenarioPage]))
          ∧ getSalesData
              (saveSalesEntry exampleEnv (some (jsonStringify [roundingRecord])) scenarioPage).storage
              = Except.ok ([roundingRecord]
                  ++ [jsonRoundTrip (saveSalesEntry.newEntry exampleEnv scenarioPage)])
          ∧ (saveSalesEntry exampleEnv (some (jsonStringify [roundingRecord])) scenarioPage).result
              = some (saveSalesEntry.newEntry exampleEnv scenarioPage))
        ∨ (exampleEnv.quotaOk = false
          ∧ (saveSalesEntry exampleEnv (some (jsonStringify [roundingRecord])) scenarioPage).storage
              = some (jsonStringify [roundingRecord])
          ∧ getSalesData
              (saveSalesEntry exampleEnv (some (jsonStringify [roundingRecord])) scenarioPage).storage
              = Except.ok [roundingRecord]
          ∧ (saveSalesEntry exampleEnv (some (jsonStringify [roundingRecord])) scenarioPage).result
              = none)) :=
  ⟨rfl, C7_atomic_append exampleEnv (some (jsonStringify [roundingRecord])) scenarioPage
    [roundingRecord] rfl⟩

/-- C8.  When `date`, `attendant`, `pump_no`, `opening_reading`, `closing_reading` or
`rate` is empty, both callers of `saveSalesEntry` stop at `checkValidity`: the
submission is rejected (and reported by `reportValidity`), the slot and the page are
left exactly as they were, and no default is written anywhere.  The `shift` select
always holds one of its three options, so it cannot be missing. -/
theorem C8_missing_required_rejected (env : Env) (st : Storage) (p : Page)
    (h : p.form.date = "" ∨ p.form.attendant = "" ∨ p.form.pump_no = none
      ∨ p.form.opening_reading = none ∨ p.form.closing_reading = none
      ∨ p.form.rate = none) :
    submitHandler env st p
        = { storage := st, page := p, result := SubmitResult.rejected, toasts := [] }
      ∧ saveAndPrint env st p
        = { storage := st, page := p, result := SubmitResult.rejected, toasts := [] } := by
  have hv := checkValidity_of_missing h
  simp [submitHandler, saveAndPrint, hv]

/-- Witness for C8: the freshly initialised page has no attendant. -/
theorem C8_missing_required_rejected_witness :
    ((initialPage "2024-01-05").form.date = "" ∨ (initialPage "2024-01-05").form.attendant = ""
        ∨ (initialPage "2024-01-05").form.pump_no = none
        ∨ (initialPage "2024-01-05").form.opening_reading = none
        ∨ (initialPage "2024-01-05").form.closing_reading = none
        ∨ (initialPage "2024-01-05").form.rate = none)
      ∧ submitHandler exampleEnv none (initialPage "2024-01-05")
          = { storage := none, page := initialPage "2024-01-05"
              result := SubmitResult.rejected, toasts := [] }
      ∧ saveAndPrint exampleEnv none (initialPage "2024-01-05")
          = { storage := none, page := initialPage "2024-01-05"
              result := SubmitResult.rejected, toasts := [] } :=
  ⟨Or.inr (Or.inl rfl),
    C8_missing_required_rejected exampleEnv none (initialPage "2024-01-05")
      (Or.inr (Or.inl rfl))⟩

/-- C9.  Let `coll` be the collection read from the slot.  With a filter date, the rows
of `filterSales` are a rearrangement of the records of `coll` whose `date` equals it:
every record occurs in the rows as often as in `coll` if its date matches and not at
all otherwise.  With the empty filter, and in `loadSalesHistory`, the rows are a
rearrangement of the whole of `coll`. -/
theorem C9_list_filter (st : Storage) (coll : List Sale) (filterDate : String)
    (hg : getSalesData st = Except.ok coll) :
    (filterDate ≠ "" → ∃ l : List Sale, filterSales filterDate st = Except.ok l
        ∧ l.Perm (coll.filter (fun r => decide (r.date = filterDate)))
        ∧ ∀ r : Sale, l.count r = if r.date = filterDate then coll.count r else 0)
      ∧ (∃ l : List Sale, filterSales "" st = Except.ok l ∧ l.Perm coll)
      ∧ (∃ l : List Sale, loadSalesHistory st = Except.ok l ∧ l.Perm coll) := by
  refine ⟨fun hf => ?_, ?_, ?_⟩
  · refine ⟨_, filterSales_of_ok filterDate hg, ?_, ?_⟩
    · have := perm_jsSort (filterSales.filteredData filterDate coll)
      simpa [filterSales.filteredData, hf] using this
    · intro r
      rw [(perm_jsSort _).count_eq]
      simp only [filterSales.filteredData, hf, ne_eq, not_false_eq_true, if_true]
      split_ifs with hr
      · exact List.count_filter (by simpa using hr)
      · rw [List.count_eq_zero, List.mem_filter]
        rintro ⟨_, h2⟩
        exact hr (by simpa using h2)
  · refine ⟨_, filterSales_of_ok "" hg, ?_⟩
    have := perm_jsSort (filterSales.filteredData "" coll)
    simpa [filterSales.filteredData] using this
  · exact ⟨_, loadSalesHistory_of_ok hg, perm_jsSort coll⟩

/-- Witness for C9: a store of three records, two of them dated 2024-01-05. -/
theorem C9_list_filter_witness :
    getSalesData (some (jsonStringify [roundingRecord, laterRecord, scenarioRecord]))
        = Except.ok [roundingRecord, laterRecord, scenarioRecord]
      ∧ ("2024-01-05" ≠ "" → ∃ l : List Sale,
          filterSales "2024-01-05"
              (some (jsonStringify [roundingRecord, laterRecord, scenarioRecord]))
            = Except.ok l
          ∧ l.Perm ([roundingRecord, laterRecord, scenarioRecord].filter
              (fun r => decide (r.date = "2024-01-05")))
          ∧ ∀ r : Sale, l.count r
              = if r.date = "2024-01-05" then
                  [roundingRecord, laterRecord, scenarioRecord].count r
                else 0)
      ∧ (∃ l : List Sale,
          filterSales "" (some (jsonStringify [roundingRecord, laterRecord, scenarioRecord]))
            = Except.ok l
          ∧ l.Perm [roundingRecord, laterRecord, scenarioRecord])
      ∧ (∃ l : List Sale,
          loadSalesHistory (some (jsonStringify [roundingRecord, laterRecord, scenarioRecord]))
            = Except.ok l
          ∧ l.Perm [roundingRecord, laterRecord, scenarioRecord]) :=
  ⟨rfl, C9_list_filter (some (jsonStringify [roundingRecord, laterRecord, scenarioRecord]))
    [roundingRecord, laterRecord, scenarioRecord] "2024-01-05" rfl⟩

/-- C10.  Let `coll` be the collection read from the slot, all its dates being valid
dates `YYYY-MM-DD`.  The rows of `loadSalesHistory`, and those of `filterSales` for any
filter value, are in descending calendar order of `date`, and for every date `d` the
rows dated `d` are the listed records dated `d` in their order in the collection.
With a filter date the rows are exactly the matching records in collection order. -/
theorem C10_date_descending_stable (st : Storage) (coll : List Sale) (filterDate : String)
    (hg : getSalesData st = Except.ok coll)
    (hv : ∀ r ∈ coll, (parseIsoDate r.date).isSome = true) :
    (∃ l : List Sale, loadSalesHistory st = Except.ok l
        ∧ l.Pairwise (fun a b => dateLe b.date a.date)
        ∧ ∀ d : String, l.filter (fun r => decide (r.date = d))
            = coll.filter (fun r => decide (r.date = d)))
      ∧ (∃ l : List Sale, filterSales filterDate st = Except.ok l
        ∧ l.Pairwise (fun a b => dateLe b.date a.date)
        ∧ ∀ d : String, l.filter (fun r => decide (r.date = d))
            = (filterSales.filteredData filterDate coll).filter (fun r => decide (r.date = d)))
      ∧ (filterDate ≠ "" → filterSales filterDate st
          = Except.ok (coll.filter (fun r => decide (r.date = filterDate)))) := by
  have hv2 : ∀ r ∈ filterSales.filteredData filterDate coll,
      (parseIsoDate r.date).isSome = true := by
    intro r hr
    unfold filterSales.filteredData at hr
    split_ifs at hr
    · exact hv r (List.mem_filter.mp hr).1
    · exact hv r hr
  refine ⟨⟨_, loadSalesHistory_of_ok hg, jsSort_sorted hv, jsSort_stable coll⟩,
    ⟨_, filterSales_of_ok filterDate hg, jsSort_sorted hv2, jsSort_stable _⟩, fun hf => ?_⟩
  rw [filterSales_of_ok filterDate hg]
  have e : filterSales.filteredData filterDate coll
      = coll.filter (fun r => decide (r.date = filterDate)) := by
    simp [filterSales.filteredData, hf]
  rw [e, jsSort_same_date _ filterDate]
  intro r hr
  simpa using (List.mem_filter.mp hr).2

/-- Witness for C10: a store of three records dated 2024-01-05, 2024-01-06 and
2024-01-05. -/
theorem C10_date_descending_stable_witness :
    getSalesData (some (jsonStringify [roundingRecord, laterRecord, scenarioRecord]))
        = Except.ok [roundingRecord, laterRecord, scenarioRecord]
      ∧ (∀ r ∈ [roundingRecord, laterRecord, scenarioRecord],
          (parseIsoDate r.date).isSome = true)
      ∧ (∃ l : List Sale,
          loadSalesHistory (some (jsonStringify [roundingRecord, laterRecord, scenarioRecord]))
            = Except.ok l
          ∧ l.Pairwise (fun a b => dateLe b.date a.date)
          ∧ ∀ d : String, l.filter (fun r => decide (r.date = d))
              = [roundingRecord, laterRecord, scenarioRecord].filter
                  (fun r => decide (r.date = d)))
      ∧ (∃ l : List Sale,
          filterSales "2024-01-05"
              (some (jsonStringify [roundingRecord, laterRecord, scenarioRecord]))
            = Except.ok l
          ∧ l.Pairwise (fun a b => dateLe b.date a.date)
          ∧ ∀ d : String, l.filter (fun r => decide (r.date = d))
              = (filterSales.filteredData "2024-01-05"
                  [roundingRecord, laterRecord, scenarioRecord]).filter
                  (fun r => decide (r.date = d)))
      ∧ ("2024-01-05" ≠ "" →
          filterSales "2024-01-05"
              (some (jsonStringify [roundingRecord, laterRecord, scenarioRecord]))
            = Except.ok ([roundingRecord, laterRecord, scenarioRecord].filter
                (fun r => decide (r.date = "2024-01-05")))) :=
  ⟨rfl, example_dates_valid,
    C10_date_descending_stable
      (some (jsonStringify [roundingRecord, laterRecord, scenarioRecord]))
      [roundingRecord, laterRecord, scenarioRecord] "2024-01-05" rfl example_dates_valid⟩

/-- C12, refuted as stated: on a text that `JSON.parse` rejects, `loadSalesHistory`
and `filterSales` (with a filter date and with none) end in the `SyntaxError`; they do
not return the empty sequence. -/
theorem C12_corrupt_blob_counterexample :
    loadSalesHistory (some Blob.corrupt) = Except.error JsError.syntaxError
      ∧ filterSales "2024-01-05" (some Blob.corrupt) = Except.error JsError.syntaxError
      ∧ filterSales "" (some Blob.corrupt) = Except.error JsError.syntaxError
      ∧ loadSalesHistory (some Blob.corrupt) ≠ Except.ok [] :=
  ⟨rfl, rfl, rfl, by simp [loadSalesHistory, getSalesData]⟩

/-- C12, amended.  The unparsable contents the code guards against are the missing
slot and the empty text (`getItem(...) || '[]'`): for these `loadSalesHistory` and
`filterSales`, with any filter value, return the empty sequence and do not throw. -/
theorem C12_missing_or_empty_slot_lists_empty (filterDate : String) :
    loadSalesHistory none = Except.ok []
      ∧ loadSalesHistory (some Blob.emptyText) = Except.ok []
      ∧ filterSales filterDate none = Except.ok []
      ∧ filterSales filterDate (some Blob.emptyText) = Except.ok [] := by
  refine ⟨rfl, rfl, ?_, ?_⟩
  · rw [@filterSales_of_ok none [] filterDate rfl]
    simp [filterSales.filteredData, jsSort]
  · rw [@filterSales_of_ok (some Blob.emptyText) [] filterDate rfl]
    simp [filterSales.filteredData, jsSort]

/-- C13.  When the collection read from the slot is empty (the slot was never written,
holds the empty text, or holds the empty array), `exportSales` toasts
`No sales data to export` as an error and produces no CSV. -/
theorem C13_empty_export (st : Storage) (h : getSalesData st = Except.ok []) :
    (exportSales st).csv = none ∧ (exportSales st).toasts = [Toast.noSalesData] := by
  rw [exportSales_of_empty h]
  exact ⟨rfl, rfl⟩

/-- Witness for C13: the slot that was never written. -/
theorem C13_empty_export_witness :
    getSalesData none = Except.ok []
      ∧ (exportSales none).csv = none ∧ (exportSales none).toasts = [Toast.noSalesData] :=
  ⟨rfl, C13_empty_export none rfl⟩

/-- C14, refuted as stated: the store holds a record dated 2024-01-05 followed by one
dated 2024-01-06.  `loadSalesHistory` lists the later one first; the CSV lines of
`exportSales` follow the stored order, and they are not the lines of the listed
sequence. -/
theorem C14_export_order_counterexample :
    loadSalesHistory (some (jsonStringify [roundingRecord, laterRecord]))
        = Except.ok [laterRecord, roundingRecord]
      ∧ ∃ lines : List (List CsvCell),
          exportSales.rows [roundingRecord, laterRecord] = Except.ok lines
            ∧ (exportSales (some (jsonStringify [roundingRecord, laterRecord]))).csv
              = some (exportSales.headers.map CsvCell.text :: lines)
            ∧ exportSales.rows [laterRecord, roundingRecord] ≠ Except.ok lines := by
  obtain ⟨lines, hl, _⟩ := exportSales_rows_of_present _ example_payments_present
  have hg : getSalesData (some (jsonStringify [roundingRecord, laterRecord]))
      = Except.ok [roundingRecord, laterRecord] := rfl
  refine ⟨example_loadSalesHistory, lines, hl, ?_, ?_⟩
  · rw [exportSales_of_rows hg (by simp) hl]
  · intro h
    rw [← hl] at h
    simp [exportSales.rows, exportSales.row, toFixedCell, roundingRecord, laterRecord] at h

/-- C14, amended.  For a non-empty collection `coll` none of whose payment fields is
`null`, `exportSales` succeeds and its CSV holds, after the header line, one line per
record of `coll` in the stored order.  `loadSalesHistory` returns the same records as a
rearrangement of `coll` (sorted by date); the two orders coincide when `coll` is
already in the order the comparator asks for. -/
theorem C14_export_in_stored_order (st : Storage) (coll : List Sale)
    (hg : getSalesData st = Except.ok coll) (hne : coll ≠ [])
    (hp : ∀ r ∈ coll, PaymentsPresent r) :
    ∃ lines : List (List CsvCell),
      exportSales st
          = { csv := some (exportSales.headers.map CsvCell.text :: lines)
              toasts := [Toast.exportedOk] }
        ∧ List.Forall₂ (fun r line => exportSales.row r = Except.ok line) coll lines
        ∧ ∃ l : List Sale, loadSalesHistory st = Except.ok l ∧ l.Perm coll
            ∧ (coll.Pairwise (fun a b => sortCompare a b ≤ 0) → l = coll) := by
  obtain ⟨lines, hl, hf⟩ := exportSales_rows_of_present coll hp
  exact ⟨lines, exportSales_of_rows hg hne hl, hf, jsSort coll, loadSalesHistory_of_ok hg,
    perm_jsSort coll, jsSort_of_sorted⟩

/-- Witness for the amended C14: the two-record store of the counterexample. -/
theorem C14_export_in_stored_order_witness :
    getSalesData (some (jsonStringify [roundingRecord, laterRecord]))
        = Except.ok [roundingRecord, laterRecord]
      ∧ [roundingRecord, laterRecord] ≠ []
      ∧ (∀ r ∈ [roundingRecord, laterRecord], PaymentsPresent r)
      ∧ ∃ lines : List (List CsvCell),
          exportSales (some (jsonStringify [roundingRecord, laterRecord]))
              = { csv := some (exportSales.headers.map CsvCell.text :: lines)
                  toasts := [Toast.exportedOk] }
            ∧ List.Forall₂ (fun r line => exportSales.row r = Except.ok line)
                [roundingRecord, laterRecord] lines
            ∧ ∃ l : List Sale,
                loadSalesHistory (some (jsonStringify [roundingRecord, laterRecord]))
                  = Except.ok l
                ∧ l.Perm [roundingRecord, laterRecord]
                ∧ ([roundingRecord, laterRecord].Pairwise (fun a b => sortCompare a b ≤ 0)
                    → l = [roundingRecord, laterRecord]) :=
  ⟨rfl, List.cons_ne_nil _ _, example_payments_present,
    C14_export_in_stored_order (some (jsonStringify [roundingRecord, laterRecord]))
      [roundingRecord, laterRecord] rfl (List.cons_ne_nil _ _) example_payments_present⟩

/-- C15, refuted as stated: two submissions at which `Date.now()` gives the same
reading leave two records with the same `id` in the store. -/
theorem C15_ids_counterexample :
    getSalesData
        (runOps [StoreOp.create exampleEnv scenarioPage, StoreOp.create exampleEnv roundingPage]
          none)
        = Except.ok [scenarioRecord, roundingRecord]
      ∧ scenarioRecord ≠ roundingRecord
      ∧ [scenarioRecord, roundingRecord].map (fun r => r.id) = [1704412800123, 1704412800123]
      ∧ ¬ ([scenarioRecord, roundingRecord].map (fun r => r.id)).Nodup
      ∧ ¬ ([scenarioRecord, roundingRecord].map (fun r => r.id)).Pairwise (fun a b => a < b) := by
  refine ⟨two_creates_same_clock, ?_, rfl, ?_, ?_⟩
  · intro h
    have : scenarioRecord.total_liters = roundingRecord.total_liters := by rw [h]
    norm_num [scenarioRecord, roundingRecord] at this
  · have e : [scenarioRecord, roundingRecord].map (fun r => r.id)
        = [1704412800123, 1704412800123] := rfl
    rw [e]
    decide
  · have e : [scenarioRecord, roundingRecord].map (fun r => r.id)
        = [1704412800123, 1704412800123] := rfl
    rw [e]
    decide

/-- C15, amended.  Start from the slot that was never written and apply any sequence
of submissions and deletions.  If the readings of `Date.now()` at the submissions
increase strictly, the slot can be read and the ids of its records increase strictly in
collection order; in particular they are pairwise distinct. -/
theorem C15_ids_increasing_with_clock (ops : List StoreOp)
    (hc : (createClocks ops).Pairwise (fun a b => a < b)) :
    ∃ coll : List Sale, getSalesData (runOps ops none) = Except.ok coll
      ∧ (coll.map (fun r => r.id)).Pairwise (fun a b => a < b)
      ∧ (coll.map (fun r => r.id)).Nodup
      ∧ ∀ r ∈ coll, r.id ∈ createClocks ops := by
  have h0 : IdsIncreasing none [] := ⟨[], rfl, List.Pairwise.nil, fun r hr => by cases hr⟩
  obtain ⟨coll, h1, h2, h3⟩ := idsIncreasing_runOps ops none [] h0 (by simpa using hc)
  refine ⟨coll, h1, h2, ?_, by simpa using h3⟩
  exact h2.imp (fun h => Nat.ne_of_lt h)

/-- Witness for the amended C15: two submissions a day apart, then a deletion. -/
theorem C15_ids_increasing_with_clock_witness :
    (createClocks [StoreOp.create exampleEnv scenarioPage, StoreOp.create laterEnv roundingPage,
        StoreOp.delete true laterEnv 1704412800123]).Pairwise (fun a b => a < b)
      ∧ ∃ coll : List Sale,
          getSalesData
              (runOps [StoreOp.create exampleEnv scenarioPage,
                StoreOp.create laterEnv roundingPage,
                StoreOp.delete true laterEnv 1704412800123] none)
            = Except.ok coll
          ∧ (coll.map (fun r => r.id)).Pairwise (fun a b => a < b)
          ∧ (coll.map (fun r => r.id)).Nodup
          ∧ ∀ r ∈ coll, r.id ∈ createClocks [StoreOp.create exampleEnv scenarioPage,
              StoreOp.create laterEnv roundingPage,
              StoreOp.delete true laterEnv 1704412800123] :=
  have hc : (createClocks [StoreOp.create exampleEnv scenarioPage,
      StoreOp.create laterEnv roundingPage,
      StoreOp.delete true laterEnv 1704412800123]).Pairwise (fun a b => a < b) := by
    have e : createClocks [StoreOp.create exampleEnv scenarioPage,
        StoreOp.create laterEnv roundingPage,
        StoreOp.delete true laterEnv 1704412800123] = [1704412800123, 1704499200456] := rfl
    rw [e]
    decide
  ⟨hc, C15_ids_increasing_with_clock _ hc⟩

/-- C17, evaluated at the failing input: `sparsePage` passes `checkValidity` and is
saved to an empty store; `exportSales` on the resulting slot ends in its `catch`
branch, with no CSV and the toast `Error exporting sales data`. -/
theorem C17_export_fails_after_sparse_create :
    checkValidity sparsePage.form = true
      ∧ (submitHandler exampleEnv none sparsePage).result
        = SubmitResult.saved (saveSalesEntry.newEntry exampleEnv sparsePage)
      ∧ getSalesData (submitHandler exampleEnv none sparsePage).storage
        = Except.ok [jsonRoundTrip (saveSalesEntry.newEntry exampleEnv sparsePage)]
      ∧ (jsonRoundTrip (saveSalesEntry.newEntry exampleEnv sparsePage)).cash_sales = JsVal.null
      ∧ exportSales (submitHandler exampleEnv none sparsePage).storage
        = { csv := none, toasts := [Toast.errorExporting] } := by
  have hs := submitHandler_of_valid exampleEnv none [] sparse_valid rfl rfl
  have hg : getSalesData (submitHandler exampleEnv none sparsePage).storage
      = Except.ok [jsonRoundTrip (saveSalesEntry.newEntry exampleEnv sparsePage)] := by
    rw [hs]
    exact getSalesData_jsonStringify _
  refine ⟨sparse_valid, by rw [hs], hg, rfl, ?_⟩
  exact exportSales_of_rows_error hg (List.cons_ne_nil _ _) rfl

end SalesRegister
